import Mathlib

/-!
# lab42/httplib

A shallow embedding of the middlewares of the repository and of the parts of
`net/http` they touch.

* `middleware/ratelimit.go`: `RateLimiter`, a buffered channel of empty structs
  used as a token bucket, a constructor that fills it, a ticker goroutine that
  tops it up once a second, and `ServeHTTP`, which takes a token without
  blocking or answers 429.
* `internal/shared.go`: `IsSensitiveField` and `ObfuscateSensitiveData`.
* `middleware/csrf.go`, `csp.go`, `recover.go`, `gzip.go`, `datadog.go` and the
  response writer of `prometheus.go`.
* The limiter with a remote and an in-process store that the tests of
  `ratelimit_test.go` exercise, modelled from the design document.

A middleware that ends in a single call is given by that call (`Call`); the
others run their `Next` handler, which is a program over the
`http.ResponseWriter` interface (`Prog`), so that the same handler can be run on
a recorder and on a wrapper around it.

Header maps are read and written under the canonical form of a header name, as
`net/textproto` computes it. The writer is the recorder of `net/http/httptest`,
whose first write sniffs the content type; `http.DetectContentType` is an
argument of every definition that can reach a write, and the theorems hold for
every function in its place.

Integers are Go `int`s, embedded as `Int`; every loop counter below stays
between a channel length and `requestsPerSecond`, so no arithmetic wraps there,
and the one `int64` accumulator wraps explicitly.
-/

namespace Httplib

/-! ## Outcomes of a Go call -/

/-- Outcome of running a piece of Go code: it returns a value, it panics, or it
blocks forever (a send on a full channel that nobody receives from). -/
inductive Res (α : Type) where
  | ret (a : α)
  | panic (msg : String)
  | block
deriving DecidableEq, Repr

/-- Sequencing of Go statements: a panic or a block ends the run. -/
def Res.bind {α β : Type} (x : Res α) (f : α → Res β) : Res β :=
  match x with
  | Res.ret a => f a
  | Res.panic m => Res.panic m
  | Res.block => Res.block

/-! ## net/http: headers, response writer, request, `http.Error` -/

/-- Go `http.Header`, a map from header name to its values, kept as an
association list with at most one entry per name. -/
abbrev Header := List (String × List String)

/-- Go `validHeaderFieldByte` of `net/textproto`: the bytes of an HTTP token,
which are the ASCII letters and digits and the fifteen marks whose codes are
listed (from the exclamation mark to the tilde). -/
def validHeaderFieldByte (c : Char) : Bool :=
  c.isAlphanum ||
    [33, 35, 36, 37, 38, 39, 42, 43, 45, 46, 94, 95, 96, 124, 126].contains c.toNat

/-- The loop of Go `canonicalMIMEHeaderKey`: a lower-case letter that starts
the name or follows a dash becomes upper case, an upper-case letter elsewhere
becomes lower case. -/
def canonicalBytes : Bool → List Char → List Char
  | _, [] => []
  | upper, c :: cs =>
    let c1 :=
      if upper && c.isLower then c.toUpper
      else if !upper && c.isUpper then c.toLower
      else c
    c1 :: canonicalBytes (c1 == '-') cs

/-- Go `textproto.CanonicalMIMEHeaderKey`: a name made of token bytes only is
brought to the canonical form (`X-Csrf-Token`); any other string is returned
unchanged. -/
def CanonicalMIMEHeaderKey (s : String) : String :=
  if s.toList.all validHeaderFieldByte then String.mk (canonicalBytes true s.toList) else s

/-- Go `Header.Del`: drop the entry of the canonical form of `key`. -/
def Header.Del (h : Header) (key : String) : Header :=
  h.filter (fun p => p.1 != CanonicalMIMEHeaderKey key)

/-- Go `Header.Set`: the entry of the canonical form of `key` becomes the
single value `value`. -/
def Header.Set (h : Header) (key value : String) : Header :=
  Header.Del h key ++ [(CanonicalMIMEHeaderKey key, [value])]

/-- Go `Header.Get`: first value of the canonical form of `key`, or the empty
string. -/
def Header.Get (h : Header) (key : String) : String :=
  match h.find? (fun p => p.1 == CanonicalMIMEHeaderKey key) with
  | some (_, v :: _) => v
  | _ => ""

/-- Go `_, ok := h[key]`: whether the map has an entry under exactly `key`. -/
def Header.has (h : Header) (key : String) : Bool :=
  h.any (fun p => p.1 == key)

/-- Go `http.ResponseWriter` as `httptest.ResponseRecorder` implements it, the
writer the tests of the repository hand to every middleware: status code,
header map, body written so far, and whether the status line has gone out. -/
structure ResponseWriter where
  Code : Int
  HeaderMap : Header
  Body : String
  wroteHeader : Bool
deriving DecidableEq, Repr

/-- Go `httptest.NewRecorder`: status 200, no headers, empty body. -/
def NewRecorder : ResponseWriter :=
  { Code := 200, HeaderMap := [], Body := "", wroteHeader := false }

/-- Go `ResponseWriter.WriteHeader`: ignored once a status has been written;
panics on a code outside 100..999 (`checkWriteHeaderCode`). -/
def ResponseWriter.WriteHeader (w : ResponseWriter) (code : Int) : Res ResponseWriter :=
  if w.wroteHeader then Res.ret w
  else if code < 100 ∨ 999 < code then Res.panic "invalid WriteHeader code"
  else Res.ret { w with Code := code, wroteHeader := true }

/-- What the recorder's `writeHeader(b, "")` does to the header map before it
sends status 200 for a first `Write` of `b`: with no entry under the key
"Content-Type" and no Transfer-Encoding value, Content-Type is set to
`http.DetectContentType(b)`. The detection, a table of byte signatures in
`net/http`, is the argument `DetectContentType`. -/
def ResponseWriter.sniff (DetectContentType : String → String) (w : ResponseWriter)
    (b : String) : ResponseWriter :=
  if !Header.has w.HeaderMap "Content-Type" && Header.Get w.HeaderMap "Transfer-Encoding" == ""
  then { w with HeaderMap := Header.Set w.HeaderMap "Content-Type" (DetectContentType b) }
  else w

/-- Go `ResponseWriter.Write`: when no status has been written, the content
type is sniffed and an implicit `WriteHeader(200)` follows; then the bytes are
appended to the body. The bytes are appended after every status: that a writer
may refuse a body after a status that allows none (1xx, 204, 304) is left
out. -/
def ResponseWriter.Write (DetectContentType : String → String) (w : ResponseWriter)
    (buf : String) : Res ResponseWriter :=
  (if w.wroteHeader then Res.ret w
   else ResponseWriter.WriteHeader (ResponseWriter.sniff DetectContentType w buf) 200).bind
    (fun w1 => Res.ret { w1 with Body := w1.Body ++ buf })

/-- The three bytes that every gzip stream starts with: 1f 8b 08. -/
def gzipMagic : String := "\x1f\x8b\x08"

/-- Go `http.DetectContentType` on the two kinds of data that the closed
examples below write. Data that starts with the gzip signature 1f 8b 08 is
"application/x-gzip"; text without a binary byte, which starts with none of the
signatures for markup, documents, images, audio, video, fonts and archives, is
"text/plain; charset=utf-8". The examples take this function for the detection;
the theorems hold for every function in its place. -/
def detectTextOrGzip (data : String) : String :=
  if gzipMagic.toList.isPrefixOf data.toList then "application/x-gzip"
  else "text/plain; charset=utf-8"

/-- Go `bodyAllowedForStatus`: no body goes with a 1xx, 204 or 304 status. -/
def bodyAllowedForStatus (status : Int) : Bool :=
  if 100 ≤ status ∧ status ≤ 199 then false
  else if status = 204 then false
  else if status = 304 then false
  else true

/-- Go `http.Cookie`, name and value. -/
structure Cookie where
  Name : String
  Value : String
deriving DecidableEq, Repr

/-- Go `http.Request`, the fields the middlewares read. `Cookies` stands for
the cookies parsed out of the request's Cookie header and `Form` for the parsed
form (query and body parameters), the two things `Request.Cookie` and
`Request.FormValue` look into. -/
structure Request where
  Method : String
  URL : String
  RemoteAddr : String
  Header : Header
  Cookies : List Cookie := []
  Form : List (String × List String) := []
deriving DecidableEq, Repr

/-- Go `Request.Cookie(name)`: the first cookie of that name; `none` is
`ErrNoCookie`. -/
def Request.Cookie (r : Request) (name : String) : Option Cookie :=
  r.Cookies.find? (fun c => c.Name == name)

/-- Go `Request.FormValue(key)`: the first value of `key` in the parsed form,
or the empty string. -/
def Request.FormValue (r : Request) (key : String) : String :=
  match r.Form.find? (fun p => p.1 == key) with
  | some (_, v :: _) => v
  | _ => ""

/-- Go `httptest.NewRequest(method, target, nil)`: a request with the test
package's fixed remote address and no headers. -/
def NewRequest (method target : String) : Request :=
  { Method := method, URL := target, RemoteAddr := "192.0.2.1:1234", Header := [] }

/-- A GET request for "/" that arrives from the remote address `addr`. -/
def requestFrom (addr : String) : Request :=
  { Method := "GET", URL := "/", RemoteAddr := addr, Header := [] }

/-- Go `http.StatusTooManyRequests`. -/
def StatusTooManyRequests : Int := 429

/-- Go `http.Error(w, error, code)`: resets the content headers, writes the
status, then prints the message with `fmt.Fprintln`, that is, followed by a
newline. -/
def Error (DetectContentType : String → String)
    (w : ResponseWriter) (error : String) (code : Int) : Res ResponseWriter :=
  let h := Header.Set (Header.Set (Header.Del w.HeaderMap "Content-Length")
    "Content-Type" "text/plain; charset=utf-8") "X-Content-Type-Options" "nosniff"
  (ResponseWriter.WriteHeader { w with HeaderMap := h } code).bind
    (fun w1 => ResponseWriter.Write DetectContentType w1 (error ++ "\n"))

/-- Go `http.HandlerFunc`: a handler works on the writer it is given; it may
panic or block. -/
abbrev HandlerFunc := ResponseWriter → Request → Res ResponseWriter

/-! ## Channels of `struct{}` -/

/-- Go `chan struct{}`: the elements carry no data, so a channel is its buffer
size (`cap`) and the number of elements queued (`len`). -/
structure Chan where
  cap : Int
  len : Int
deriving DecidableEq, Repr

/-- Go `make(chan struct{}, size)`: panics on a negative size. -/
def makeChan (size : Int) : Res Chan :=
  if size < 0 then Res.panic "makechan: size out of range"
  else Res.ret { cap := size, len := 0 }

/-- Go `ch <- struct{}{}` with no receiver waiting: queues the element when
the buffer has room, blocks otherwise. -/
def Chan.send (ch : Chan) : Res Chan :=
  if ch.len < ch.cap then Res.ret { ch with len := ch.len + 1 } else Res.block

/-- Go `select { case <-ch: ...; default: ... }` with no sender waiting: the
receive case fires, taking one element, exactly when one is queued. -/
def Chan.selectRecv (ch : Chan) : Option Chan :=
  if 0 < ch.len then some { ch with len := ch.len - 1 } else none

/-- Go `for i := i0; i < n; i++ { ch <- struct{}{} }`. The loop runs at most
`(n - i0).toNat` times, which is the fuel every caller passes. -/
def sendLoop : Nat → Int → Int → Chan → Res Chan
  | 0, _, _, ch => Res.ret ch
  | fuel + 1, i, n, ch =>
    if i < n then (Chan.send ch).bind (fun ch1 => sendLoop fuel (i + 1) n ch1)
    else Res.ret ch

/-! ## The rate limiter -/

/-- Go `RateLimiter`. The mutex `mu` is held only by the refill goroutine and
guards nothing that `ServeHTTP` reads under it; it has no state of its own
here. -/
structure RateLimiter where
  requestsPerSecond : Int
  bucket : Chan
deriving DecidableEq, Repr

/-- Go `NewRateLimiter`: makes the channel, fills it. The refill goroutine it
starts acts through `RateLimiter.refill`, one call per tick. -/
def NewRateLimiter (requestsPerSecond : Int) : Res RateLimiter :=
  (makeChan requestsPerSecond).bind (fun ch =>
    (sendLoop requestsPerSecond.toNat 0 requestsPerSecond ch).bind (fun ch1 =>
      Res.ret { requestsPerSecond := requestsPerSecond, bucket := ch1 }))

/-- One iteration of the `for range ticker.C` loop of Go `startRefill`: under
the mutex, send until the count that started at `len(rl.bucket)` reaches
`requestsPerSecond`. -/
def RateLimiter.refill (rl : RateLimiter) : Res RateLimiter :=
  (sendLoop (rl.requestsPerSecond - rl.bucket.len).toNat rl.bucket.len
      rl.requestsPerSecond rl.bucket).bind
    (fun ch => Res.ret { rl with bucket := ch })

/-- The call that `ServeHTTP` makes in tail position: either the downstream
handler, or `http.Error`. -/
inductive Call where
  | next (w : ResponseWriter) (r : Request)
  | httpError (w : ResponseWriter) (error : String) (code : Int)
deriving DecidableEq, Repr

/-- Go `RateLimiter.ServeHTTP`: the non-blocking receive picks the branch; the
result is the limiter afterwards and the one call the branch makes. -/
def RateLimiter.ServeHTTP (rl : RateLimiter) (w : ResponseWriter) (r : Request) :
    RateLimiter × Call :=
  match Chan.selectRecv rl.bucket with
  | some b => ({ rl with bucket := b }, Call.next w r)
  | none => (rl, Call.httpError w "Rate limit exceeded" StatusTooManyRequests)

/-- Carrying out the call of a `ServeHTTP` branch against a given downstream
handler. -/
def Call.exec (DetectContentType : String → String) (next : HandlerFunc) :
    Call → Res ResponseWriter
  | Call.next w r => next w r
  | Call.httpError w error code => Error DetectContentType w error code

/-- Whether the call is the downstream handler (the request was admitted). -/
def Call.isNext : Call → Bool
  | Call.next _ _ => true
  | Call.httpError _ _ _ => false

/-- The shape of every limiter that `NewRateLimiter` builds and that requests
and ticks preserve: the channel's buffer size is `requestsPerSecond` and its
length lies between zero and the buffer size. -/
def RateLimiter.WF (rl : RateLimiter) : Prop :=
  rl.bucket.cap = rl.requestsPerSecond ∧ 0 ≤ rl.bucket.len ∧ rl.bucket.len ≤ rl.bucket.cap

/-! ## Runs: requests and ticks applied one after the other -/

/-- What happens to a limiter: a request arrives, or the ticker fires. -/
inductive Event where
  | serve (w : ResponseWriter) (r : Request)
  | tick
deriving DecidableEq, Repr

/-- One event applied to the limiter; a request contributes the call that
`ServeHTTP` makes, a tick contributes none. -/
def RateLimiter.step (rl : RateLimiter) : Event → Res (RateLimiter × List Call)
  | Event.serve w r => Res.ret ((RateLimiter.ServeHTTP rl w r).1, [(RateLimiter.ServeHTTP rl w r).2])
  | Event.tick => (RateLimiter.refill rl).bind (fun rl1 => Res.ret (rl1, []))

/-- A sequence of events applied in order, with the calls made, in order. -/
def RateLimiter.run : RateLimiter → List Event → Res (RateLimiter × List Call)
  | rl, [] => Res.ret (rl, [])
  | rl, e :: es =>
    (RateLimiter.step rl e).bind (fun p =>
      (RateLimiter.run p.1 es).bind (fun q => Res.ret (q.1, p.2 ++ q.2)))

/-- Number of admitted requests among the calls of a run. -/
def admitted (tr : List Call) : Nat := tr.countP Call.isNext

/-- Number of ticks among the events. -/
def ticks (evs : List Event) : Nat := evs.countP (fun e => e == Event.tick)

/-- The requests of a burst, as events. -/
def serveAll (reqs : List (ResponseWriter × Request)) : List Event :=
  reqs.map (fun p => Event.serve p.1 p.2)

/-- The calls of a burst in which every request is admitted. -/
def nextAll (reqs : List (ResponseWriter × Request)) : List Call :=
  reqs.map (fun p => Call.next p.1 p.2)

/-- The calls of a burst in which every request is rejected. -/
def rejectAll (reqs : List (ResponseWriter × Request)) : List Call :=
  reqs.map (fun p => Call.httpError p.1 "Rate limit exceeded" StatusTooManyRequests)

/-! ## The admit step of the design document -/

/-- The design's token-bucket step, items 3 and 4 of its algorithm: with at
least one token, decrement by one and admit; else do not admit and leave the
tokens unchanged. -/
def Spec.admitStep (refilled : Int) : Int × Bool :=
  if refilled ≥ 1 then (refilled - 1, true) else (refilled, false)

/-! ## Concurrent calls of `ServeHTTP` -/

/-- A goroutine running `ServeHTTP(w, r, next)`: before its `select`, after the
`select` picked a branch but before the branch has finished its call, and
after it returned. -/
inductive Goroutine where
  | pending (w : ResponseWriter) (r : Request)
  | chosen (c : Call)
  | returned (c : Call)
deriving DecidableEq, Repr

/-- The limiter shared by a set of goroutines. -/
structure Sys where
  rl : RateLimiter
  gs : List Goroutine
deriving DecidableEq, Repr

/-- The scheduler lets goroutine `i` take its next step. The `select` is one
step (a channel operation is atomic in Go); the call of the chosen branch does
not touch the limiter. A goroutine that has returned, or an index that names
none, leaves the system as it is. -/
def Sys.step (s : Sys) (i : Nat) : Sys :=
  match s.gs.get? i with
  | some (Goroutine.pending w r) =>
    { rl := (RateLimiter.ServeHTTP s.rl w r).1,
      gs := s.gs.set i (Goroutine.chosen (RateLimiter.ServeHTTP s.rl w r).2) }
  | some (Goroutine.chosen c) => { s with gs := s.gs.set i (Goroutine.returned c) }
  | _ => s

/-- An interleaving: the scheduler's choices, in order. -/
def Sys.runSched (s : Sys) (sched : List Nat) : Sys := sched.foldl Sys.step s

/-- The call a goroutine has committed to, once past its `select`. -/
def Goroutine.call : Goroutine → Option Call
  | Goroutine.pending _ _ => none
  | Goroutine.chosen c => some c
  | Goroutine.returned c => some c

/-- The goroutine is past its `select` and was admitted. -/
def Goroutine.isAdmitted (g : Goroutine) : Bool :=
  match Goroutine.call g with
  | some c => Call.isNext c
  | none => false

/-- The goroutine is past its `select` and was rejected. -/
def Goroutine.isRejected (g : Goroutine) : Bool :=
  match Goroutine.call g with
  | some c => !Call.isNext c
  | none => false

/-- The goroutine has not yet executed its `select`. -/
def Goroutine.isPending (g : Goroutine) : Bool :=
  match Goroutine.call g with
  | some _ => false
  | none => true

/-- The goroutines of a burst, all about to start. -/
def launch (reqs : List (ResponseWriter × Request)) : List Goroutine :=
  reqs.map (fun p => Goroutine.pending p.1 p.2)

/-- Goroutine `g` ended up with the call that belongs to its own request
`(w, r)`: the handler on `(w, r)`, or the 429 error on `w`. -/
def Goroutine.servedOwn (g : Goroutine) (p : ResponseWriter × Request) : Prop :=
  Goroutine.call g = some (Call.next p.1 p.2) ∨
  Goroutine.call g = some (Call.httpError p.1 "Rate limit exceeded" StatusTooManyRequests)

/-- Goroutine `g` is still at the start of `ServeHTTP(w, r, next)` for its own
request, or has committed to the call that belongs to it. -/
def Goroutine.follows (g : Goroutine) (p : ResponseWriter × Request) : Prop :=
  g = Goroutine.pending p.1 p.2 ∨ Goroutine.servedOwn g p

/-- What every interleaving keeps true of a burst launched against `k` tokens:
each admission stands for one token taken, the bucket is not negative, a
rejection has only happened on an empty bucket, and every goroutine is at work
on its own request. -/
def Sys.Inv (k : Int) (reqs : List (ResponseWriter × Request)) (s : Sys) : Prop :=
  ((s.gs.countP Goroutine.isAdmitted : Nat) : Int) + s.rl.bucket.len = k ∧
  0 ≤ s.rl.bucket.len ∧
  (s.gs.countP Goroutine.isRejected ≠ 0 → s.rl.bucket.len = 0) ∧
  List.Forall₂ Goroutine.follows s.gs reqs

/-! ## internal/shared.go -/

/-- Go `strings.EqualFold` on ASCII strings: equal once the ASCII letters are
brought to one case. It serves to run the functions below on examples; the
functions themselves take the comparison as an argument. -/
def asciiEqualFold (s t : String) : Bool :=
  s.toList.map Char.toLower == t.toList.map Char.toLower

/-- Go `IsSensitiveField`: the loop over `sensitiveKeys` returns `true` at the
first key that `strings.EqualFold` (the argument `EqualFold`) finds equal to
`key`, and `false` after the last. -/
def IsSensitiveField (EqualFold : String → String → Bool) (key : String) :
    List String → Bool
  | [] => false
  | sensitiveKey :: rest =>
    if EqualFold key sensitiveKey then true else IsSensitiveField EqualFold key rest

/-- Go `ObfuscateSensitiveData`: starting from the nil slice, append the mask
for a sensitive key, append all of `values` otherwise. -/
def ObfuscateSensitiveData (EqualFold : String → String → Bool) (key : String)
    (values : List String) (sensitiveKeys : List String) : List String :=
  let obfuscatedValues : List String := []
  if IsSensitiveField EqualFold key sensitiveKeys then
    obfuscatedValues ++ ["********"]
  else
    obfuscatedValues ++ values

/-! ## middleware/csrf.go -/

/-- Go `CSRFMiddleware`. -/
structure CSRFMiddleware where
  Next : HandlerFunc
  CSRFHeader : String
  CSRFCookie : String
  CSRFParam : String
  CSRFToken : String
  ErrorStatus : Int

/-- Go `NewCSRFMiddleware`. -/
def NewCSRFMiddleware (next : HandlerFunc)
    (csrfHeader csrfCookie csrfParam csrfToken : String) (errorStatus : Int) : CSRFMiddleware :=
  { Next := next, CSRFHeader := csrfHeader, CSRFCookie := csrfCookie, CSRFParam := csrfParam,
    CSRFToken := csrfToken, ErrorStatus := errorStatus }

/-- The first part of Go `CSRFMiddleware.ServeHTTP`, which retrieves the token:
the header value; if that is empty, the value of the cookie when the request
has one; if the token is still empty, the form value. -/
def CSRFMiddleware.token (m : CSRFMiddleware) (r : Request) : String :=
  let token := Header.Get r.Header m.CSRFHeader
  let token :=
    if token = "" then
      match Request.Cookie r m.CSRFCookie with
      | some cookie => cookie.Value
      | none => token
    else token
  let token := if token = "" then Request.FormValue r m.CSRFParam else token
  token

/-- Go `CSRFMiddleware.ServeHTTP`: the call it ends in, `http.Error` with the
configured status when the token differs from the expected one, `m.Next`
otherwise. -/
def CSRFMiddleware.ServeHTTP (m : CSRFMiddleware) (w : ResponseWriter) (r : Request) : Call :=
  if CSRFMiddleware.token m r ≠ m.CSRFToken then
    Call.httpError w "CSRF token validation failed" m.ErrorStatus
  else
    Call.next w r

/-! ## middleware/csp.go -/

/-- Go `CSPMiddleware`. -/
structure CSPMiddleware where
  Next : HandlerFunc
  CSP : String

/-- Go `NewCSPMiddleware`. -/
def NewCSPMiddleware (next : HandlerFunc) (csp : String) : CSPMiddleware :=
  { Next := next, CSP := csp }

/-- Go `CSPMiddleware.ServeHTTP`: sets the header on the writer, then calls
`m.Next` on that writer and the request. -/
def CSPMiddleware.ServeHTTP (m : CSPMiddleware) (w : ResponseWriter) (r : Request) : Call :=
  Call.next { w with HeaderMap := Header.Set w.HeaderMap "Content-Security-Policy" m.CSP } r

/-! ## Handlers as programs over the writer interface -/

/-- Go `http.ResponseWriter`, the interface: what an implementation with state
`W` provides. `header` is the map that `Header()` returns, `putHeader` stores
that map after a change made through it, `writeHeader` and `write` are the two
methods; a call leaves the implementation's state behind also when it panics.
Of the pair that `Write` returns, the byte count is kept. -/
structure Writer (W : Type) where
  header : W → Header
  putHeader : W → Header → W
  writeHeader : W → Int → W × Res Unit
  write : W → String → W × Res Int

/-- A handler as its writer sees it: the calls it makes on the interface, one
after the other, each continuing with what the call returned, until it returns,
panics or blocks. -/
inductive Prog where
  | halt (e : Res Unit)
  | headerGet (key : String) (k : String → Prog)
  | headerSet (key value : String) (rest : Prog)
  | headerDel (key : String) (rest : Prog)
  | writeHeader (code : Int) (rest : Prog)
  | write (b : String) (k : Int → Prog)

/-- Running a handler's calls against an implementation of the interface: the
state the implementation is left in, and how the handler ended. A call that
panics ends the handler there. -/
def Prog.runOn {W : Type} (I : Writer W) : Prog → W → W × Res Unit
  | Prog.halt e, w => (w, e)
  | Prog.headerGet key k, w => Prog.runOn I (k (Header.Get (I.header w) key)) w
  | Prog.headerSet key value rest, w =>
    Prog.runOn I rest (I.putHeader w (Header.Set (I.header w) key value))
  | Prog.headerDel key rest, w =>
    Prog.runOn I rest (I.putHeader w (Header.Del (I.header w) key))
  | Prog.writeHeader code rest, w =>
    match I.writeHeader w code with
    | (w1, Res.ret _) => Prog.runOn I rest w1
    | (w1, Res.panic msg) => (w1, Res.panic msg)
    | (w1, Res.block) => (w1, Res.block)
  | Prog.write b k, w =>
    match I.write w b with
    | (w1, Res.ret n) => Prog.runOn I (k n) w1
    | (w1, Res.panic msg) => (w1, Res.panic msg)
    | (w1, Res.block) => (w1, Res.block)

/-- The recorder as an implementation of the interface. `Write` returns the
length of what it was given, after every status, as `ResponseWriter.Write`
appends after every status. -/
def recorderWriter (DetectContentType : String → String) : Writer ResponseWriter where
  header := fun w => w.HeaderMap
  putHeader := fun w h => { w with HeaderMap := h }
  writeHeader := fun w code =>
    match ResponseWriter.WriteHeader w code with
    | Res.ret w1 => (w1, Res.ret ())
    | Res.panic msg => (w, Res.panic msg)
    | Res.block => (w, Res.block)
  write := fun w b =>
    match ResponseWriter.Write DetectContentType w b with
    | Res.ret w1 => (w1, Res.ret (b.utf8ByteSize : Int))
    | Res.panic msg => (w, Res.panic msg)
    | Res.block => (w, Res.block)

/-- Go `http.Handler`: for each request, the calls it makes on its writer. -/
abbrev Handler := Request → Prog

/-- Go `Handler.ServeHTTP(w, r)` on a recorder. -/
def Handler.ServeHTTP (DetectContentType : String → String)
    (h : Handler) (w : ResponseWriter) (r : Request) :
    ResponseWriter × Res Unit :=
  Prog.runOn (recorderWriter DetectContentType) (h r) w

/-- Go `http.Error(w, error, code)` as the calls it makes on `w`: the same
steps as `Error`, against any writer. -/
def ErrorCalls (error : String) (code : Int) : Prog :=
  Prog.headerDel "Content-Length"
    (Prog.headerSet "Content-Type" "text/plain; charset=utf-8"
      (Prog.headerSet "X-Content-Type-Options" "nosniff"
        (Prog.writeHeader code
          (Prog.write (error ++ "\n") (fun _ => Prog.halt (Res.ret ()))))))

/-- Go `http.StatusInternalServerError`. -/
def StatusInternalServerError : Int := 500

/-- Go `internal.DummyHandler`: status 200, body "OK". -/
def DummyHandler : Handler :=
  fun _ => Prog.writeHeader 200 (Prog.write "OK" (fun _ => Prog.halt (Res.ret ())))

/-! ## middleware/recover.go -/

/-- Go `RecoveryMiddleware`. -/
structure RecoveryMiddleware where
  Next : Handler

/-- Go `NewRecoveryMiddleware`. -/
def NewRecoveryMiddleware (next : Handler) : RecoveryMiddleware :=
  { Next := next }

/-- Go `RecoveryMiddleware.ServeHTTP`: `m.Next` runs; when it panics, the
deferred function recovers and calls `http.Error` on the writer as the handler
left it (the lines it prints to the process's own output are not part of the
response); when it returns, the deferred function finds nothing to recover. -/
def RecoveryMiddleware.ServeHTTP (DetectContentType : String → String)
    (m : RecoveryMiddleware) (w : ResponseWriter) (r : Request) :
    ResponseWriter × Res Unit :=
  match Handler.ServeHTTP DetectContentType m.Next w r with
  | (w1, Res.panic _) =>
    Prog.runOn (recorderWriter DetectContentType)
      (ErrorCalls "Internal Server Error" StatusInternalServerError) w1
  | (w1, Res.ret u) => (w1, Res.ret u)
  | (w1, Res.block) => (w1, Res.block)

/-! ## middleware/prometheus.go: the response writer -/

/-- A Go `int64` computed from the mathematical value `x`: the value wrapped
into the 64-bit two's complement range. -/
def wrapInt64 (x : Int) : Int :=
  (x + 9223372036854775808) % 18446744073709551616 - 9223372036854775808

/-- Go `prometheusResponseWriter`: the embedded writer, whatever implements it,
with the tracked status code and size. -/
structure prometheusResponseWriter (W : Type) where
  ResponseWriter : W
  statusCode : Int
  size : Int

/-- Go `NewPrometheusResponseWriter`: status 200, size 0. -/
def NewPrometheusResponseWriter {W : Type} (w : W) : prometheusResponseWriter W :=
  { ResponseWriter := w, statusCode := 200, size := 0 }

/-- Go `prometheusResponseWriter.WriteHeader`: records the code, then passes it
to the embedded writer. -/
def prometheusResponseWriter.WriteHeader {W : Type} (I : Writer W)
    (rw : prometheusResponseWriter W) (code : Int) : prometheusResponseWriter W × Res Unit :=
  ({ rw with statusCode := code, ResponseWriter := (I.writeHeader rw.ResponseWriter code).1 },
    (I.writeHeader rw.ResponseWriter code).2)

/-- Go `prometheusResponseWriter.Write`: passes the bytes to the embedded
writer, adds the count it returns to `size` (an `int64`), returns that count. -/
def prometheusResponseWriter.Write {W : Type} (I : Writer W)
    (rw : prometheusResponseWriter W) (b : String) : prometheusResponseWriter W × Res Int :=
  match I.write rw.ResponseWriter b with
  | (w1, Res.ret size) =>
    ({ rw with ResponseWriter := w1, size := wrapInt64 (rw.size + size) }, Res.ret size)
  | (w1, Res.panic msg) => ({ rw with ResponseWriter := w1 }, Res.panic msg)
  | (w1, Res.block) => ({ rw with ResponseWriter := w1 }, Res.block)

/-- Go `prometheusResponseWriter.Size`. -/
def prometheusResponseWriter.Size {W : Type} (rw : prometheusResponseWriter W) : Int :=
  rw.size

/-- A call of one of the two writing methods of a writer. -/
inductive WriterCall where
  | Write (b : String)
  | WriteHeader (code : Int)
deriving DecidableEq, Repr

/-- A sequence of `Write` and `WriteHeader` calls made on the wrapper, in order. -/
def prometheusResponseWriter.calls {W : Type} (I : Writer W) :
    prometheusResponseWriter W → List WriterCall → prometheusResponseWriter W
  | rw, [] => rw
  | rw, WriterCall.Write b :: cs =>
    prometheusResponseWriter.calls I (prometheusResponseWriter.Write I rw b).1 cs
  | rw, WriterCall.WriteHeader code :: cs =>
    prometheusResponseWriter.calls I (prometheusResponseWriter.WriteHeader I rw code).1 cs

/-- The same sequence of calls made on a writer directly: the writer afterwards
and the byte counts that its `Write` calls returned, in order. -/
def Writer.calls {W : Type} (I : Writer W) : W → List WriterCall → W × List Int
  | w, [] => (w, [])
  | w, WriterCall.Write b :: cs =>
    match I.write w b with
    | (w1, Res.ret n) => ((Writer.calls I w1 cs).1, n :: (Writer.calls I w1 cs).2)
    | (w1, _) => Writer.calls I w1 cs
  | w, WriterCall.WriteHeader code :: cs => Writer.calls I (I.writeHeader w code).1 cs

/-- The code of the most recent `WriteHeader` call of a sequence, if there is
one. -/
def lastWriteHeader : List WriterCall → Option Int
  | [] => none
  | WriterCall.Write _ :: cs => lastWriteHeader cs
  | WriterCall.WriteHeader code :: cs =>
    match lastWriteHeader cs with
    | some later => some later
    | none => some code

/-! ## middleware/datadog.go -/

/-- Go `datadogResponseWriter`: an embedded writer (here a recorder) and the
tracked status code. -/
structure datadogResponseWriter where
  ResponseWriter : ResponseWriter
  statusCode : Int
deriving DecidableEq, Repr

/-- Go `NewDatadogResponseWriter`: tracked status 200. -/
def NewDatadogResponseWriter (w : ResponseWriter) : datadogResponseWriter :=
  { ResponseWriter := w, statusCode := 200 }

/-- Go `datadogResponseWriter.WriteHeader`: records the code, then passes it to
the embedded writer. -/
def datadogResponseWriter.WriteHeader (DetectContentType : String → String)
    (rw : datadogResponseWriter) (code : Int) :
    datadogResponseWriter × Res Unit :=
  ({ statusCode := code,
     ResponseWriter :=
       ((recorderWriter DetectContentType).writeHeader rw.ResponseWriter code).1 },
    ((recorderWriter DetectContentType).writeHeader rw.ResponseWriter code).2)

/-- The value behind an `http.ResponseWriter` handed to the Datadog
middleware, with its dynamic type: a plain recorder, or a
`*datadogResponseWriter` around one. -/
inductive AnyWriter where
  | recorder (w : ResponseWriter)
  | datadog (rw : datadogResponseWriter)
deriving DecidableEq, Repr

/-- The interface as the two dynamic types implement it: `Header` and `Write`
of a `datadogResponseWriter` are those of the embedded writer, `WriteHeader` is
its own. -/
def anyWriter (DetectContentType : String → String) : Writer AnyWriter where
  header := fun a =>
    match a with
    | AnyWriter.recorder w => w.HeaderMap
    | AnyWriter.datadog rw => rw.ResponseWriter.HeaderMap
  putHeader := fun a h =>
    match a with
    | AnyWriter.recorder w => AnyWriter.recorder { w with HeaderMap := h }
    | AnyWriter.datadog rw =>
      AnyWriter.datadog { rw with ResponseWriter := { rw.ResponseWriter with HeaderMap := h } }
  writeHeader := fun a code =>
    match a with
    | AnyWriter.recorder w =>
      (AnyWriter.recorder ((recorderWriter DetectContentType).writeHeader w code).1,
        ((recorderWriter DetectContentType).writeHeader w code).2)
    | AnyWriter.datadog rw =>
      (AnyWriter.datadog (datadogResponseWriter.WriteHeader DetectContentType rw code).1,
        (datadogResponseWriter.WriteHeader DetectContentType rw code).2)
  write := fun a b =>
    match a with
    | AnyWriter.recorder w =>
      (AnyWriter.recorder ((recorderWriter DetectContentType).write w b).1,
        ((recorderWriter DetectContentType).write w b).2)
    | AnyWriter.datadog rw =>
      (AnyWriter.datadog { rw with
          ResponseWriter := ((recorderWriter DetectContentType).write rw.ResponseWriter b).1 },
        ((recorderWriter DetectContentType).write rw.ResponseWriter b).2)

/-- Go `DatadogMiddleware`. The statsd client is seen through the names of the
metrics it is sent; the sample rate, a float passed along with each, is left
out. -/
structure DatadogMiddleware where
  Next : Handler

/-- Go `NewDatadogMiddleware`. -/
def NewDatadogMiddleware (next : Handler) : DatadogMiddleware :=
  { Next := next }

/-- Go `DatadogMiddleware.ServeHTTP`, with `http.StatusText` as an argument:
the writer afterwards, the metrics sent in order, and how the call ends. After
`m.Next` has returned, the duration and the count are sent; the status metric
needs `w.(*datadogResponseWriter)`, a type assertion that panics when the
dynamic type of `w` is another one; then the method and the path. -/
def DatadogMiddleware.ServeHTTP (DetectContentType : String → String)
    (StatusText : Int → String) (m : DatadogMiddleware)
    (w : AnyWriter) (r : Request) : (AnyWriter × List String) × Res Unit :=
  match Prog.runOn (anyWriter DetectContentType) (m.Next r) w with
  | (w1, Res.ret _) =>
    match w1 with
    | AnyWriter.datadog rw =>
      ((w1, ["http.request.duration", "http.request.count",
          "http.response.status." ++ StatusText rw.statusCode,
          "http.request.method." ++ r.Method, "http.request.path." ++ r.URL]), Res.ret ())
    | AnyWriter.recorder _ =>
      ((w1, ["http.request.duration", "http.request.count"]),
        Res.panic "interface conversion: http.ResponseWriter is not *middleware.datadogResponseWriter")
  | (w1, Res.panic msg) => ((w1, []), Res.panic msg)
  | (w1, Res.block) => ((w1, []), Res.block)

/-! ## middleware/gzip.go -/

/-- Go `strings.Contains(s, substr)`. -/
def stringsContains (s substr : String) : Bool :=
  s.toList.tails.any (fun t => substr.toList.isPrefixOf t)

/-- Go `compress/gzip`, as far as the middleware depends on it. A writer of a
given level emits `header level` on its first `Write` and, by the time it is
closed, `finish level input` after it, where `input` is everything it was
given; `gunzip` is what a `gzip.Reader` makes of a stream. Byte strings are
carried in `String`. -/
structure GzipCodec where
  header : Int → String
  finish : Int → String → String
  gunzip : String → Option String

/-- Go `gzip.Writer`: its level, whether the header has gone out, the input so
far, whether it is closed. The writer it writes to is the one held next to it
in `GzipResponseWriter`. -/
structure GzipWriter where
  level : Int
  wroteHeader : Bool
  input : String
  closed : Bool
deriving DecidableEq, Repr

/-- Go `gzip.NewWriterLevel`: an error (`none`) for a level below
`gzip.HuffmanOnly` (-2) or above `gzip.BestCompression` (9). -/
def NewWriterLevel (level : Int) : Option GzipWriter :=
  if level < -2 ∨ 9 < level then none
  else some { level := level, wroteHeader := false, input := "", closed := false }

/-- Go `GzipResponseWriter`: the embedded writer and the gzip writer that
writes to it. -/
structure GzipResponseWriter where
  ResponseWriter : ResponseWriter
  gz : GzipWriter
deriving DecidableEq, Repr

/-- Go `NewGzipResponseWriter`. -/
def NewGzipResponseWriter (w : ResponseWriter) (gz : GzipWriter) : GzipResponseWriter :=
  { ResponseWriter := w, gz := gz }

/-- Go `GzipResponseWriter.Write`, that is `grw.gz.Write(b)`: the first write
sends the gzip header to the embedded writer; the bytes join the input; the
count returned is the length of `b`. A closed writer takes nothing. -/
def GzipResponseWriter.Write (DetectContentType : String → String)
    (codec : GzipCodec) (grw : GzipResponseWriter) (b : String) :
    GzipResponseWriter × Res Int :=
  if grw.gz.closed then (grw, Res.ret 0)
  else if grw.gz.wroteHeader then
    ({ grw with gz := { grw.gz with input := grw.gz.input ++ b } }, Res.ret (b.utf8ByteSize : Int))
  else
    match (recorderWriter DetectContentType).write grw.ResponseWriter
        (codec.header grw.gz.level) with
    | (w1, Res.ret _) =>
      ({ ResponseWriter := w1,
         gz := { grw.gz with wroteHeader := true, input := grw.gz.input ++ b } },
        Res.ret (b.utf8ByteSize : Int))
    | (w1, Res.panic msg) => ({ grw with ResponseWriter := w1 }, Res.panic msg)
    | (w1, Res.block) => ({ grw with ResponseWriter := w1 }, Res.block)

/-- Go `gz.Close()` as deferred by the middleware: nothing on a closed writer;
otherwise the header goes out if no write had sent it, then the rest of the
stream for the whole input. -/
def GzipResponseWriter.Close (DetectContentType : String → String)
    (codec : GzipCodec) (grw : GzipResponseWriter) :
    GzipResponseWriter :=
  if grw.gz.closed then grw
  else
    let grw1 :=
      if grw.gz.wroteHeader then grw
      else (GzipResponseWriter.Write DetectContentType codec grw "").1
    { ResponseWriter :=
        ((recorderWriter DetectContentType).write grw1.ResponseWriter
          (codec.finish grw1.gz.level grw1.gz.input)).1,
      gz := { grw1.gz with closed := true } }

/-- `GzipResponseWriter` as an implementation of the interface: `Header` and
`WriteHeader` are those of the embedded writer, `Write` is its own. -/
def gzipResponseWriter (DetectContentType : String → String)
    (codec : GzipCodec) : Writer GzipResponseWriter where
  header := fun grw => grw.ResponseWriter.HeaderMap
  putHeader := fun grw h => { grw with ResponseWriter := { grw.ResponseWriter with HeaderMap := h } }
  writeHeader := fun grw code =>
    ({ grw with
        ResponseWriter :=
          ((recorderWriter DetectContentType).writeHeader grw.ResponseWriter code).1 },
      ((recorderWriter DetectContentType).writeHeader grw.ResponseWriter code).2)
  write := GzipResponseWriter.Write DetectContentType codec

/-- Go `GzipMiddleware`; `CompressionLevel` is `none` for the nil pointer. -/
structure GzipMiddleware where
  Next : Handler
  CompressionLevel : Option Int

/-- Go `NewGzipMiddleware`. -/
def NewGzipMiddleware (next : Handler) (compressionLevel : Option Int) : GzipMiddleware :=
  { Next := next, CompressionLevel := compressionLevel }

/-- Go `GzipMiddleware.ServeHTTP`. With "gzip" in Accept-Encoding: the level (-1
for nil), the gzip writer (or a 500 when the level is refused), the
Content-Encoding header, then `m.Next` on the wrapped writer; the deferred
`gz.Close()` runs when `m.Next` returns or panics. Otherwise `m.Next` on the
writer as it is. -/
def GzipMiddleware.ServeHTTP (DetectContentType : String → String)
    (codec : GzipCodec) (m : GzipMiddleware) (w : ResponseWriter)
    (r : Request) : ResponseWriter × Res Unit :=
  if stringsContains (Header.Get r.Header "Accept-Encoding") "gzip" then
    let compressionLevel : Int :=
      match m.CompressionLevel with
      | some level => level
      | none => -1
    match NewWriterLevel compressionLevel with
    | none =>
      Prog.runOn (recorderWriter DetectContentType)
        (ErrorCalls "Internal Server Error" StatusInternalServerError) w
    | some gz =>
      let w1 := { w with HeaderMap := Header.Set w.HeaderMap "Content-Encoding" "gzip" }
      match Prog.runOn (gzipResponseWriter DetectContentType codec) (m.Next r)
          (NewGzipResponseWriter w1 gz) with
      | (grw, Res.block) => (grw.ResponseWriter, Res.block)
      | (grw, e) => ((GzipResponseWriter.Close DetectContentType codec grw).ResponseWriter, e)
  else
    Handler.ServeHTTP DetectContentType m.Next w r

/-- A stand-in for `compress/gzip` on which the functions above can be run: the
stream is the gzip signature, the input as it is, and the mark "END". -/
def markCodec : GzipCodec where
  header := fun _ => gzipMagic
  finish := fun _ input => input ++ "END"
  gunzip := fun s => some (String.mk ((s.toList.drop 3).take (s.toList.length - 6)))

/-- The handler of the middleware tests: it writes "Hello, World!". -/
def helloHandler : Handler :=
  fun _ => Prog.write "Hello, World!" (fun _ => Prog.halt (Res.ret ()))

/-- The request of the gzip test: GET "/" with Accept-Encoding "gzip". -/
def gzipRequest : Request :=
  { Method := "GET", URL := "/", RemoteAddr := "192.0.2.1:1234",
    Header := [("Accept-Encoding", ["gzip"])] }

/-- The bytes a handler writes during a run on an implementation of the
interface: the arguments of its `Write` calls that returned, one after the
other. The run is the one of `Prog.runOn`, call by call. -/
def Prog.outputOn {W : Type} (I : Writer W) : Prog → W → String
  | Prog.halt _, _ => ""
  | Prog.headerGet key k, w => Prog.outputOn I (k (Header.Get (I.header w) key)) w
  | Prog.headerSet key value rest, w =>
    Prog.outputOn I rest (I.putHeader w (Header.Set (I.header w) key value))
  | Prog.headerDel key rest, w =>
    Prog.outputOn I rest (I.putHeader w (Header.Del (I.header w) key))
  | Prog.writeHeader code rest, w =>
    match I.writeHeader w code with
    | (w1, Res.ret _) => Prog.outputOn I rest w1
    | (_, Res.panic _) => ""
    | (_, Res.block) => ""
  | Prog.write b k, w =>
    match I.write w b with
    | (w1, Res.ret n) => b ++ Prog.outputOn I (k n) w1
    | (_, Res.panic _) => ""
    | (_, Res.block) => ""

/-- A handler that leaves the header `name` alone: none of the `Set` and `Del`
calls it can make on the header map is for a name of the same canonical form. -/
def Prog.leavesHeader (name : String) : Prog → Prop
  | Prog.halt _ => True
  | Prog.headerGet _ k => ∀ v, Prog.leavesHeader name (k v)
  | Prog.headerSet key _ rest =>
    CanonicalMIMEHeaderKey key ≠ CanonicalMIMEHeaderKey name ∧ Prog.leavesHeader name rest
  | Prog.headerDel key rest =>
    CanonicalMIMEHeaderKey key ≠ CanonicalMIMEHeaderKey name ∧ Prog.leavesHeader name rest
  | Prog.writeHeader _ rest => Prog.leavesHeader name rest
  | Prog.write _ k => ∀ n, Prog.leavesHeader name (k n)

/-- What holds of the wrapped writer while the handler runs: the gzip writer is
open, at the level it was made with, and has taken `acc` so far; the embedded
writer's body is the starting body `base`, followed by the gzip header once a
write has sent it. -/
def GzipInv (codec : GzipCodec) (level : Int) (base acc : String) (grw : GzipResponseWriter) :
    Prop :=
  grw.gz.level = level ∧ grw.gz.closed = false ∧ grw.gz.input = acc ∧
  grw.ResponseWriter.Body = base ++ (if grw.gz.wroteHeader then codec.header level else "") ∧
  (grw.gz.wroteHeader = false → acc = "")

/-! ## The admission controller of the design document

The tests of `ratelimit_test.go` exercise `RateLimitMiddleware`, a limiter with
a remote store and an in-process store, whose definition is not among the
sources. It is modelled here from the design document. -/

/-- Modelled from the spec: `BucketState` of section 3, the state kept per
client key by `RateLimitMiddleware`, whose definition is missing from the
sources. -/
structure BucketState where
  tokens : Int
  lastRefill : Int
deriving DecidableEq, Repr

/-- Modelled from the spec: `RateLimitConfig` of section 3, the configuration of
the missing `RateLimitMiddleware`. -/
structure RateLimitConfig where
  refillAmount : Int
  refillInterval : Int
  capacity : Int
deriving DecidableEq, Repr

/-- Modelled from the spec: the missing token-bucket algorithm `admit` of
section 4.1, named `admitAt` here. The elapsed time is clamped at zero; when at least one interval has
elapsed, the whole periods are refilled up to the capacity and `lastRefill`
advances by those periods; then the admit step of items 3 and 4. -/
def Spec.admitAt (state : BucketState) (config : RateLimitConfig) (now : Int) :
    BucketState × Bool :=
  let elapsed := if now - state.lastRefill < 0 then 0 else now - state.lastRefill
  let refilled : BucketState :=
    if elapsed ≥ config.refillInterval then
      { tokens := min config.capacity
          (state.tokens + (elapsed / config.refillInterval) * config.refillAmount),
        lastRefill := state.lastRefill + (elapsed / config.refillInterval) * config.refillInterval }
    else state
  ({ refilled with tokens := (Spec.admitStep refilled.tokens).1 },
    (Spec.admitStep refilled.tokens).2)

/-- Modelled from the spec: the missing bucket store of section 4.2, the bucket
states by client key. -/
abbrev BucketStore := List (String × BucketState)

/-- Modelled from the spec: reading a key's state from the missing bucket store;
`none` for a key not seen before. -/
def BucketStore.get (store : BucketStore) (key : String) : Option BucketState :=
  match store.find? (fun p => p.1 == key) with
  | some p => some p.2
  | none => none

/-- Modelled from the spec: writing a key's state to the missing bucket
store. -/
def BucketStore.put (store : BucketStore) (key : String) (state : BucketState) : BucketStore :=
  (key, state) :: store.filter (fun p => p.1 != key)

/-- Modelled from the spec: the missing remote variant of the bucket store
(section 4.2), which a network or store error can make unreachable. -/
structure RemoteStore where
  buckets : BucketStore
  reachable : Bool
deriving DecidableEq, Repr

/-- Modelled from the spec: one check against a store of the missing limiter
(sections 4.2 and 4.3). A key not seen before starts with a full bucket as of
now; the algorithm decides; the new state is persisted. -/
def Spec.checkStore (config : RateLimitConfig) (store : BucketStore) (key : String)
    (now : Int) : BucketStore × Bool :=
  let state : BucketState :=
    match BucketStore.get store key with
    | some st => st
    | none => { tokens := config.capacity, lastRefill := now }
  (BucketStore.put store key (Spec.admitAt state config now).1, (Spec.admitAt state config now).2)

/-- Modelled from the spec: the missing admission controller of section 4.3
(`RateLimitMiddleware` in the tests), with its configuration, the client-key
extraction, the remote store when one is configured, and the in-process
store. -/
structure AdmissionController where
  config : RateLimitConfig
  clientKey : Request → String
  remote : Option RemoteStore
  inProcess : BucketStore

/-- Modelled from the spec: `Check` of the missing admission controller
(section 4.3). With a remote store configured the sequence runs against it; on
a remote-store error the in-process store decides, for that call only; with no
remote store the in-process store is used directly. -/
def AdmissionController.Check (c : AdmissionController) (key : String) (now : Int) :
    AdmissionController × Bool :=
  match c.remote with
  | some rs =>
    if rs.reachable then
      ({ c with remote := some { rs with buckets := (Spec.checkStore c.config rs.buckets key now).1 } },
        (Spec.checkStore c.config rs.buckets key now).2)
    else
      ({ c with inProcess := (Spec.checkStore c.config c.inProcess key now).1 },
        (Spec.checkStore c.config c.inProcess key now).2)
  | none =>
    ({ c with inProcess := (Spec.checkStore c.config c.inProcess key now).1 },
      (Spec.checkStore c.config c.inProcess key now).2)

/-- Modelled from the spec: the missing request adapter of section 4.4. The
request's client key is checked; on refusal the call is the 429 with
"Rate limit exceeded", on admission the downstream handler. -/
def AdmissionController.ServeHTTP (c : AdmissionController) (w : ResponseWriter) (r : Request)
    (now : Int) : AdmissionController × Call :=
  if (AdmissionController.Check c (c.clientKey r) now).2 then
    ((AdmissionController.Check c (c.clientKey r) now).1, Call.next w r)
  else
    ((AdmissionController.Check c (c.clientKey r) now).1,
      Call.httpError w "Rate limit exceeded" StatusTooManyRequests)

/-- Modelled from the spec: the missing limiter as the tests configure it, two
requests per second with capacity two, keyed by remote address, a remote store
that cannot be reached and an empty in-process store. -/
def degradedController : AdmissionController :=
  { config := { refillAmount := 2, refillInterval := 1, capacity := 2 },
    clientKey := fun r => r.RemoteAddr,
    remote := some { buckets := [], reachable := false },
    inProcess := [] }

end Httplib

namespace Httplib

/-! ## Basic facts -/

@[simp] theorem Res.bind_ret {α β : Type} (a : α) (f : α → Res β) :
    (Res.ret a).bind f = f a := rfl

@[simp] theorem Res.bind_panic {α β : Type} (m : String) (f : α → Res β) :
    (Res.panic m : Res α).bind f = Res.panic m := rfl

@[simp] theorem Res.bind_block {α β : Type} (f : α → Res β) :
    (Res.block : Res α).bind f = Res.block := rfl

/-- The send loop with enough fuel and enough room in the buffer returns, having
queued `n - i` elements (none when `n ≤ i`). -/
theorem sendLoop_ret (fuel : Nat) : ∀ (i n : Int) (ch : Chan),
    (n - i).toNat ≤ fuel → ch.len + (n - i) ≤ ch.cap →
    sendLoop fuel i n ch = Res.ret { cap := ch.cap, len := ch.len + ((n - i).toNat : Int) } := by
  induction fuel with
  | zero =>
    intro i n ch hf _
    have h0 : (n - i).toNat = 0 := by omega
    simp [sendLoop, h0]
  | succ fuel ih =>
    intro i n ch hf hroom
    by_cases hin : i < n
    · have hsend : Chan.send ch = Res.ret { cap := ch.cap, len := ch.len + 1 } := by
        have : ch.len < ch.cap := by omega
        simp [Chan.send, this]
      have hrec := ih (i + 1) n { cap := ch.cap, len := ch.len + 1 } (by omega) (by simp only; omega)
      simp only [sendLoop, hin, if_true, hsend, Res.bind_ret, hrec]
      congr 2
      omega
    · have h0 : (n - i).toNat = 0 := by omega
      simp [sendLoop, hin, h0]

/-- Fuel beyond `(n - i).toNat` changes nothing: the fuel that the callers pass
never cuts a loop short, whatever the channel. -/
theorem sendLoop_fuel (fuel : Nat) : ∀ (i n : Int) (ch : Chan), (n - i).toNat ≤ fuel →
    sendLoop fuel i n ch = sendLoop (n - i).toNat i n ch := by
  induction fuel with
  | zero =>
    intro i n ch hf
    have h0 : (n - i).toNat = 0 := by omega
    rw [h0]
  | succ fuel ih =>
    intro i n ch hf
    by_cases hin : i < n
    · obtain ⟨m, hm⟩ : ∃ m, (n - i).toNat = m + 1 := ⟨(n - i).toNat - 1, by omega⟩
      have hm1 : (n - (i + 1)).toNat = m := by omega
      rw [hm]
      simp only [sendLoop, hin, if_true]
      cases Chan.send ch with
      | ret ch1 =>
        simp only [Res.bind_ret]
        rw [ih (i + 1) n ch1 (by omega), hm1]
      | panic msg => rfl
      | block => rfl
    · have h0 : (n - i).toNat = 0 := by omega
      rw [h0]
      simp [sendLoop, hin]

theorem NewRateLimiter_ret (c : Int) (hc : 0 ≤ c) :
    NewRateLimiter c = Res.ret { requestsPerSecond := c, bucket := { cap := c, len := c } } := by
  have hmk : makeChan c = Res.ret { cap := c, len := 0 } := by
    have : ¬ c < 0 := by omega
    simp [makeChan, this]
  have hloop := sendLoop_ret c.toNat 0 c { cap := c, len := 0 } (by simp) (by simp)
  simp only [NewRateLimiter, hmk, Res.bind_ret, hloop]
  congr 3
  simp only [sub_zero, zero_add]
  omega

theorem NewRateLimiter_panic (c : Int) (hc : c < 0) :
    NewRateLimiter c = Res.panic "makechan: size out of range" := by
  simp [NewRateLimiter, makeChan, hc]

theorem NewRateLimiter_WF (c : Int) (hc : 0 ≤ c) :
    RateLimiter.WF { requestsPerSecond := c, bucket := { cap := c, len := c } } :=
  ⟨rfl, hc, le_refl _⟩

/-- A tick on a well-formed limiter returns and leaves the bucket full. -/
theorem refill_ret (rl : RateLimiter) (h : RateLimiter.WF rl) :
    RateLimiter.refill rl = Res.ret
      { requestsPerSecond := rl.requestsPerSecond,
        bucket := { cap := rl.bucket.cap, len := rl.requestsPerSecond } } := by
  obtain ⟨hcap, h0, hle⟩ := h
  have hloop := sendLoop_ret (rl.requestsPerSecond - rl.bucket.len).toNat rl.bucket.len
    rl.requestsPerSecond rl.bucket (le_refl _) (by omega)
  simp only [RateLimiter.refill, hloop, Res.bind_ret]
  congr 3
  omega

theorem ServeHTTP_token (rl : RateLimiter) (w : ResponseWriter) (r : Request)
    (h : 0 < rl.bucket.len) :
    RateLimiter.ServeHTTP rl w r =
      ({ requestsPerSecond := rl.requestsPerSecond,
         bucket := { cap := rl.bucket.cap, len := rl.bucket.len - 1 } }, Call.next w r) := by
  simp [RateLimiter.ServeHTTP, Chan.selectRecv, h]

theorem ServeHTTP_empty (rl : RateLimiter) (w : ResponseWriter) (r : Request)
    (h : rl.bucket.len ≤ 0) :
    RateLimiter.ServeHTTP rl w r =
      (rl, Call.httpError w "Rate limit exceeded" StatusTooManyRequests) := by
  have : ¬ 0 < rl.bucket.len := by omega
  simp [RateLimiter.ServeHTTP, Chan.selectRecv, this]

/-- What `http.Error` leaves in a writer that has not sent a status yet. -/
theorem Error_fresh (DetectContentType : String → String)
    (w : ResponseWriter) (error : String) (code : Int)
    (hw : w.wroteHeader = false) (hlo : 100 ≤ code) (hhi : code ≤ 999) :
    Error DetectContentType w error code = Res.ret
      { Code := code,
        HeaderMap := Header.Set (Header.Set (Header.Del w.HeaderMap "Content-Length")
          "Content-Type" "text/plain; charset=utf-8") "X-Content-Type-Options" "nosniff",
        Body := w.Body ++ (error ++ "\n"),
        wroteHeader := true } := by
  have hc : ¬ (code < 100 ∨ 999 < code) := by omega
  simp [Error, ResponseWriter.WriteHeader, ResponseWriter.Write, hw, hc]

/-- On a writer whose status has gone out, `http.Error` still returns: it only
appends the message. -/
theorem Error_wrote (DetectContentType : String → String)
    (w : ResponseWriter) (error : String) (code : Int)
    (hw : w.wroteHeader = true) :
    Error DetectContentType w error code = Res.ret
      { Code := w.Code,
        HeaderMap := Header.Set (Header.Set (Header.Del w.HeaderMap "Content-Length")
          "Content-Type" "text/plain; charset=utf-8") "X-Content-Type-Options" "nosniff",
        Body := w.Body ++ (error ++ "\n"),
        wroteHeader := true } := by
  simp [Error, ResponseWriter.WriteHeader, ResponseWriter.Write, hw]

theorem run_append (evs1 : List Event) : ∀ (rl : RateLimiter) (evs2 : List Event),
    RateLimiter.run rl (evs1 ++ evs2) =
      (RateLimiter.run rl evs1).bind (fun p =>
        (RateLimiter.run p.1 evs2).bind (fun q => Res.ret (q.1, p.2 ++ q.2))) := by
  induction evs1 with
  | nil =>
    intro rl evs2
    simp only [List.nil_append, RateLimiter.run, Res.bind_ret]
    cases RateLimiter.run rl evs2 <;> simp
  | cons e es ih =>
    intro rl evs2
    rw [List.cons_append]
    simp only [RateLimiter.run]
    cases hstep : RateLimiter.step rl e with
    | ret p =>
      simp only [Res.bind_ret]
      rw [ih]
      cases RateLimiter.run p.1 es with
      | ret q =>
        simp only [Res.bind_ret]
        cases RateLimiter.run q.1 evs2 <;> simp
      | panic m => simp
      | block => simp
    | panic m => simp
    | block => simp

/-- A burst no longer than the number of tokens is admitted whole. -/
theorem run_burst_within (reqs : List (ResponseWriter × Request)) : ∀ (rl : RateLimiter),
    (reqs.length : Int) ≤ rl.bucket.len →
    RateLimiter.run rl (serveAll reqs) = Res.ret
      ({ requestsPerSecond := rl.requestsPerSecond,
         bucket := { cap := rl.bucket.cap, len := rl.bucket.len - (reqs.length : Int) } },
       nextAll reqs) := by
  induction reqs with
  | nil =>
    intro rl _
    simp [serveAll, nextAll, RateLimiter.run]
  | cons p ps ih =>
    intro rl h
    simp only [List.length_cons, Nat.cast_add, Nat.cast_one] at h
    have hpos : 0 < rl.bucket.len := by omega
    have hrec := ih ⟨rl.requestsPerSecond, ⟨rl.bucket.cap, rl.bucket.len - 1⟩⟩
      (by simp only; omega)
    simp only [serveAll] at hrec
    simp only [serveAll, nextAll, List.map_cons, RateLimiter.run, RateLimiter.step,
      ServeHTTP_token rl p.1 p.2 hpos, Res.bind_ret, hrec, List.length_cons, Nat.cast_add,
      Nat.cast_one, List.singleton_append]
    congr 4
    omega

/-- A burst against an empty bucket is rejected whole and leaves the limiter as
it was. -/
theorem run_burst_empty (reqs : List (ResponseWriter × Request)) (rl : RateLimiter)
    (h : rl.bucket.len ≤ 0) :
    RateLimiter.run rl (serveAll reqs) = Res.ret (rl, rejectAll reqs) := by
  induction reqs with
  | nil => simp [serveAll, rejectAll, RateLimiter.run]
  | cons p ps ih =>
    simp only [serveAll] at ih
    simp [serveAll, rejectAll, RateLimiter.run, RateLimiter.step,
      ServeHTTP_empty rl p.1 p.2 h, ih]

/-- From `k` tokens, a burst of `k + 1` requests: the first `k` are admitted and
the last is rejected. -/
theorem run_burst_exhaust (rl : RateLimiter) (pre : List (ResponseWriter × Request))
    (w : ResponseWriter) (r : Request) (h : (pre.length : Int) = rl.bucket.len) :
    RateLimiter.run rl (serveAll (pre ++ [(w, r)])) = Res.ret
      ({ requestsPerSecond := rl.requestsPerSecond, bucket := { cap := rl.bucket.cap, len := 0 } },
       nextAll pre ++ [Call.httpError w "Rate limit exceeded" StatusTooManyRequests]) := by
  have h1 := run_burst_within pre rl (by omega)
  have h2 := run_burst_empty [(w, r)]
    ⟨rl.requestsPerSecond, ⟨rl.bucket.cap, rl.bucket.len - (pre.length : Int)⟩⟩
    (by simp only; omega)
  have hs : serveAll (pre ++ [(w, r)]) = serveAll pre ++ serveAll [(w, r)] := by
    simp [serveAll]
  rw [hs, run_append, h1, Res.bind_ret, h2, Res.bind_ret]
  simp only [rejectAll, List.map_cons, List.map_nil]
  congr 4
  omega

theorem ServeHTTP_WF (rl : RateLimiter) (w : ResponseWriter) (r : Request)
    (h : RateLimiter.WF rl) : RateLimiter.WF (RateLimiter.ServeHTTP rl w r).1 := by
  obtain ⟨hcap, h0, hle⟩ := h
  by_cases hpos : 0 < rl.bucket.len
  · rw [ServeHTTP_token rl w r hpos]
    exact ⟨hcap, by simp only; omega, by simp only; omega⟩
  · rw [ServeHTTP_empty rl w r (by omega)]
    exact ⟨hcap, h0, hle⟩

theorem ticks_serve (w : ResponseWriter) (r : Request) (es : List Event) :
    ticks (Event.serve w r :: es) = ticks es := by
  simp [ticks]

theorem ticks_tick (es : List Event) : ticks (Event.tick :: es) = ticks es + 1 := by
  simp [ticks]

theorem admitted_next (w : ResponseWriter) (r : Request) (tr : List Call) :
    admitted ([Call.next w r] ++ tr) = admitted tr + 1 := by
  simp [admitted, Call.isNext]

theorem admitted_httpError (w : ResponseWriter) (e : String) (c : Int) (tr : List Call) :
    admitted ([Call.httpError w e c] ++ tr) = admitted tr := by
  simp [admitted, Call.isNext]

/-- Every run from a well-formed limiter returns, ends well-formed with the same
`requestsPerSecond`, and accounts for its tokens: what was admitted plus what is
left is at most what was there plus `requestsPerSecond` per tick, with equality
when there was no tick. -/
theorem run_accounting (evs : List Event) : ∀ (rl : RateLimiter), RateLimiter.WF rl →
    ∃ rl1 tr, RateLimiter.run rl evs = Res.ret (rl1, tr) ∧ RateLimiter.WF rl1 ∧
      rl1.requestsPerSecond = rl.requestsPerSecond ∧
      (admitted tr : Int) + rl1.bucket.len ≤
        rl.bucket.len + rl.requestsPerSecond * (ticks evs : Int) ∧
      (ticks evs = 0 → (admitted tr : Int) + rl1.bucket.len = rl.bucket.len) := by
  induction evs with
  | nil =>
    intro rl h
    exact ⟨rl, [], rfl, h, rfl, by simp [admitted, ticks], by simp [admitted]⟩
  | cons e es ih =>
    intro rl h
    cases e with
    | serve w r =>
      obtain ⟨rl1, tr, hrun, hwf, hrps, hacc, heq⟩ := ih _ (ServeHTTP_WF rl w r h)
      refine ⟨rl1, [(RateLimiter.ServeHTTP rl w r).2] ++ tr, ?_, hwf, ?_, ?_, ?_⟩
      · simp [RateLimiter.run, RateLimiter.step, hrun]
      · rw [hrps]
        by_cases hpos : 0 < rl.bucket.len
        · rw [ServeHTTP_token rl w r hpos]
        · rw [ServeHTTP_empty rl w r (by omega)]
      · rw [ticks_serve]
        by_cases hpos : 0 < rl.bucket.len
        · rw [ServeHTTP_token rl w r hpos] at hacc ⊢
          rw [admitted_next]
          simp only at hacc
          push_cast
          linarith
        · rw [ServeHTTP_empty rl w r (by omega)] at hacc ⊢
          rw [admitted_httpError]
          exact hacc
      · rw [ticks_serve]
        intro ht
        have heq1 := heq ht
        by_cases hpos : 0 < rl.bucket.len
        · rw [ServeHTTP_token rl w r hpos] at heq1 ⊢
          rw [admitted_next]
          simp only at heq1
          push_cast
          linarith
        · rw [ServeHTTP_empty rl w r (by omega)] at heq1 ⊢
          rw [admitted_httpError]
          exact heq1
    | tick =>
      have hwf1 : RateLimiter.WF ⟨rl.requestsPerSecond, ⟨rl.bucket.cap, rl.requestsPerSecond⟩⟩ := by
        obtain ⟨hcap, h0, hle⟩ := h
        exact ⟨hcap, by simp only; omega, by simp only; omega⟩
      obtain ⟨rl1, tr, hrun, hwf, hrps, hacc, _⟩ := ih _ hwf1
      refine ⟨rl1, tr, ?_, hwf, hrps, ?_, ?_⟩
      · simp [RateLimiter.run, RateLimiter.step, refill_ret rl h, hrun]
      · rw [ticks_tick]
        simp only at hacc
        obtain ⟨_, h0, _⟩ := h
        push_cast
        linarith
      · rw [ticks_tick]
        intro ht
        omega

/-! ## Interleavings -/

theorem countP_set_get? {α : Type} (q : α → Bool) : ∀ (l : List α) (i : Nat) (g a : α),
    l.get? i = some g →
    (l.set i a).countP q + (if q g then 1 else 0) = l.countP q + (if q a then 1 else 0) := by
  intro l
  induction l with
  | nil => intro i g a h; simp at h
  | cons x xs ih =>
    intro i g a h
    cases i with
    | zero =>
      simp only [List.get?_cons_zero, Option.some.injEq] at h
      subst h
      simp only [List.set_cons_zero, List.countP_cons]
      omega
    | succ j =>
      simp only [List.get?_cons_succ] at h
      have hj := ih j g a h
      simp only [List.set_cons_succ, List.countP_cons]
      omega

theorem forall₂_set_get? {α β : Type} (R : α → β → Prop) : ∀ (l : List α) (m : List β)
    (i : Nat) (g a : α), List.Forall₂ R l m → l.get? i = some g → (∀ b, R g b → R a b) →
    List.Forall₂ R (l.set i a) m := by
  intro l m i g a hR
  induction hR generalizing i with
  | nil => intro h _; simp at h
  | cons hxy _ ih =>
    intro h himp
    cases i with
    | zero =>
      simp only [List.get?_cons_zero, Option.some.injEq] at h
      subst h
      exact List.Forall₂.cons (himp _ hxy) (by assumption)
    | succ j =>
      simp only [List.get?_cons_succ] at h
      exact List.Forall₂.cons hxy (ih j h himp)

/-- Taken at index `i` of a list paired with the requests, a goroutine that is
still pending is pending on some request of the burst. -/
theorem forall₂_get?_follows : ∀ (gs : List Goroutine) (reqs : List (ResponseWriter × Request))
    (i : Nat) (g : Goroutine), List.Forall₂ Goroutine.follows gs reqs → gs.get? i = some g →
    ∃ p, p ∈ reqs ∧ Goroutine.follows g p := by
  intro gs reqs i g hR
  induction hR generalizing i with
  | nil => intro h; simp at h
  | cons hxy _ ih =>
    intro h
    cases i with
    | zero =>
      simp only [List.get?_cons_zero, Option.some.injEq] at h
      subst h
      exact ⟨_, List.mem_cons_self _ _, hxy⟩
    | succ j =>
      simp only [List.get?_cons_succ] at h
      obtain ⟨p, hp, hf⟩ := ih j h
      exact ⟨p, List.mem_cons_of_mem _ hp, hf⟩

theorem Sys.step_pending (s : Sys) (i : Nat) (w : ResponseWriter) (r : Request)
    (hg : s.gs.get? i = some (Goroutine.pending w r)) :
    Sys.step s i = ⟨(RateLimiter.ServeHTTP s.rl w r).1,
      s.gs.set i (Goroutine.chosen (RateLimiter.ServeHTTP s.rl w r).2)⟩ := by
  simp only [Sys.step, hg]

theorem Sys.step_chosen (s : Sys) (i : Nat) (c : Call)
    (hg : s.gs.get? i = some (Goroutine.chosen c)) :
    Sys.step s i = { rl := s.rl, gs := s.gs.set i (Goroutine.returned c) } := by
  simp only [Sys.step, hg]

theorem Sys.step_returned (s : Sys) (i : Nat) (c : Call)
    (hg : s.gs.get? i = some (Goroutine.returned c)) : Sys.step s i = s := by
  simp only [Sys.step, hg]

theorem Sys.step_none (s : Sys) (i : Nat) (hg : s.gs.get? i = none) : Sys.step s i = s := by
  simp only [Sys.step, hg]

/-- One scheduler step keeps the invariant of a burst. -/
theorem Sys.Inv_step (k : Int) (reqs : List (ResponseWriter × Request)) (s : Sys) (i : Nat)
    (h : Sys.Inv k reqs s) : Sys.Inv k reqs (Sys.step s i) := by
  obtain ⟨hacc, h0, hrej, hfol⟩ := h
  cases hg : s.gs.get? i with
  | none =>
    rw [Sys.step_none s i hg]
    exact ⟨hacc, h0, hrej, hfol⟩
  | some g =>
    cases g with
    | returned c =>
      rw [Sys.step_returned s i c hg]
      exact ⟨hacc, h0, hrej, hfol⟩
    | chosen c =>
      rw [Sys.step_chosen s i c hg]
      have hA := countP_set_get? Goroutine.isAdmitted s.gs i _ (Goroutine.returned c) hg
      have hR := countP_set_get? Goroutine.isRejected s.gs i _ (Goroutine.returned c) hg
      simp only [Goroutine.isAdmitted, Goroutine.isRejected, Goroutine.call] at hA hR
      refine ⟨?_, h0, ?_, ?_⟩
      · simp only
        omega
      · simp only
        intro hne
        exact hrej (by omega)
      · refine forall₂_set_get? _ _ _ i _ _ hfol hg ?_
        intro b hb
        rcases hb with hb | hb
        · cases hb
        · exact Or.inr hb
    | pending w r =>
      rw [Sys.step_pending s i w r hg]
      have hA := countP_set_get? Goroutine.isAdmitted s.gs i _
        (Goroutine.chosen (RateLimiter.ServeHTTP s.rl w r).2) hg
      have hR := countP_set_get? Goroutine.isRejected s.gs i _
        (Goroutine.chosen (RateLimiter.ServeHTTP s.rl w r).2) hg
      simp only [Goroutine.isAdmitted, Goroutine.isRejected, Goroutine.call] at hA hR
      by_cases hpos : 0 < s.rl.bucket.len
      · rw [ServeHTTP_token s.rl w r hpos] at hA hR ⊢
        simp only [Call.isNext] at hA hR
        have hnone : s.gs.countP Goroutine.isRejected = 0 := by
          by_contra hne
          have := hrej hne
          omega
        refine ⟨?_, ?_, ?_, ?_⟩
        · simp only
          simp at hA
          omega
        · simp only
          omega
        · simp only
          intro hne
          simp at hR
          omega
        · refine forall₂_set_get? _ _ _ i _ _ hfol hg ?_
          intro b hb
          rcases hb with hb | hb
          · cases hb
            exact Or.inr (Or.inl rfl)
          · rcases hb with hb | hb <;> simp [Goroutine.call] at hb
      · have hz : s.rl.bucket.len ≤ 0 := by omega
        rw [ServeHTTP_empty s.rl w r hz] at hA hR ⊢
        simp only [Call.isNext] at hA hR
        refine ⟨?_, h0, ?_, ?_⟩
        · simp only
          simp at hA
          omega
        · simp only
          intro _
          omega
        · refine forall₂_set_get? _ _ _ i _ _ hfol hg ?_
          intro b hb
          rcases hb with hb | hb
          · cases hb
            exact Or.inr (Or.inr rfl)
          · rcases hb with hb | hb <;> simp [Goroutine.call] at hb

/-- Every interleaving keeps the invariant of a burst. -/
theorem Sys.Inv_runSched (k : Int) (reqs : List (ResponseWriter × Request))
    (sched : List Nat) : ∀ (s : Sys), Sys.Inv k reqs s → Sys.Inv k reqs (Sys.runSched s sched) := by
  induction sched with
  | nil => intro s h; exact h
  | cons i is ih =>
    intro s h
    exact ih _ (Sys.Inv_step k reqs s i h)

theorem launch_follows : ∀ (reqs : List (ResponseWriter × Request)),
    List.Forall₂ Goroutine.follows (launch reqs) reqs := by
  intro reqs
  induction reqs with
  | nil => exact List.Forall₂.nil
  | cons p ps ih => exact List.Forall₂.cons (Or.inl rfl) ih

theorem launch_counts (reqs : List (ResponseWriter × Request)) :
    (launch reqs).countP Goroutine.isAdmitted = 0 ∧
    (launch reqs).countP Goroutine.isRejected = 0 := by
  induction reqs with
  | nil => exact ⟨rfl, rfl⟩
  | cons p ps ih =>
    obtain ⟨h1, h2⟩ := ih
    simp only [launch] at h1 h2
    simp [launch, List.countP_cons, Goroutine.isAdmitted, Goroutine.isRejected,
      Goroutine.call, h1, h2]

/-- The burst as launched satisfies the invariant for the tokens it finds. -/
theorem Sys.Inv_launch (rl : RateLimiter) (reqs : List (ResponseWriter × Request))
    (h0 : 0 ≤ rl.bucket.len) : Sys.Inv rl.bucket.len reqs ⟨rl, launch reqs⟩ := by
  obtain ⟨hA, hR⟩ := launch_counts reqs
  refine ⟨?_, h0, ?_, launch_follows reqs⟩
  · simp only [hA]
    simp
  · simp only [hR]
    intro h
    exact absurd rfl h

/-- Once no goroutine is pending, each one counts as admitted or as rejected. -/
theorem counts_when_none_pending : ∀ (gs : List Goroutine),
    (∀ g ∈ gs, Goroutine.isPending g = false) →
    gs.countP Goroutine.isAdmitted + gs.countP Goroutine.isRejected = gs.length := by
  intro gs
  induction gs with
  | nil => intro _; rfl
  | cons g gs ih =>
    intro h
    have hrec := ih (fun x hx => h x (List.mem_cons_of_mem _ hx))
    have hg := h g (List.mem_cons_self _ _)
    simp only [List.countP_cons, List.length_cons]
    cases g with
    | pending w r => simp [Goroutine.isPending, Goroutine.call] at hg
    | chosen c =>
      cases hc : Call.isNext c <;>
        simp [Goroutine.isAdmitted, Goroutine.isRejected, Goroutine.call, hc] <;> omega
    | returned c =>
      cases hc : Call.isNext c <;>
        simp [Goroutine.isAdmitted, Goroutine.isRejected, Goroutine.call, hc] <;> omega

theorem servedOwn_when_none_pending : ∀ (gs : List Goroutine)
    (reqs : List (ResponseWriter × Request)), List.Forall₂ Goroutine.follows gs reqs →
    (∀ g ∈ gs, Goroutine.isPending g = false) → List.Forall₂ Goroutine.servedOwn gs reqs := by
  intro gs reqs hR
  induction hR with
  | nil => intro _; exact List.Forall₂.nil
  | cons hxy _ ih =>
    intro h
    refine List.Forall₂.cons ?_ (ih (fun x hx => h x (List.mem_cons_of_mem _ hx)))
    rcases hxy with hp | hs
    · have := h _ (List.mem_cons_self _ _)
      rw [hp] at this
      simp [Goroutine.isPending, Goroutine.call] at this
    · exact hs

/-! ## Bursts against a fresh limiter -/

/-- C1: for every capacity `c ≥ 0`, on the limiter that `NewRateLimiter c`
returns and with no tick in between, `c + 1` consecutive `ServeHTTP` calls
invoke `next` for exactly the first `c` and answer the last one with
`http.Error` at status 429, which is the status the response then carries. -/
theorem fresh_burst_admits_capacity_then_rejects (DetectContentType : String → String)
    (c : Int) (hc : 0 ≤ c)
    (pre : List (ResponseWriter × Request)) (w : ResponseWriter) (r : Request)
    (hlen : pre.length = c.toNat) :
    ∃ rl rl1, NewRateLimiter c = Res.ret rl ∧
      RateLimiter.run rl (serveAll (pre ++ [(w, r)])) = Res.ret
        (rl1, nextAll pre ++ [Call.httpError w "Rate limit exceeded" 429]) ∧
      admitted (nextAll pre ++ [Call.httpError w "Rate limit exceeded" 429]) = c.toNat ∧
      ∀ next : HandlerFunc, ∃ w1,
        Call.exec DetectContentType next (Call.httpError w "Rate limit exceeded" 429) = Res.ret w1 ∧
        w1.Code = if w.wroteHeader then w.Code else 429 := by
  refine ⟨_, ⟨c, ⟨c, 0⟩⟩, NewRateLimiter_ret c hc, ?_, ?_, ?_⟩
  · exact run_burst_exhaust _ pre w r (by simp only; omega)
  · simp [admitted, nextAll, List.countP_append, List.countP_map, Call.isNext, hlen,
      Function.comp_def]
  · intro next
    cases hw : w.wroteHeader with
    | false =>
      exact ⟨_, Error_fresh DetectContentType w _ 429 hw (by decide) (by decide), by simp⟩
    | true =>
      exact ⟨_, Error_wrote DetectContentType w _ 429 hw, by simp⟩

theorem fresh_burst_admits_capacity_then_rejects_witness :
    (0 : Int) ≤ 2 ∧
    [(NewRecorder, NewRequest "GET" "/a"), (NewRecorder, NewRequest "GET" "/b")].length
      = (2 : Int).toNat ∧
    ∃ rl rl1, NewRateLimiter 2 = Res.ret rl ∧
      RateLimiter.run rl (serveAll
        ([(NewRecorder, NewRequest "GET" "/a"), (NewRecorder, NewRequest "GET" "/b")] ++
          [(NewRecorder, NewRequest "GET" "/c")])) = Res.ret
        (rl1, nextAll [(NewRecorder, NewRequest "GET" "/a"), (NewRecorder, NewRequest "GET" "/b")]
          ++ [Call.httpError NewRecorder "Rate limit exceeded" 429]) ∧
      admitted (nextAll [(NewRecorder, NewRequest "GET" "/a"), (NewRecorder, NewRequest "GET" "/b")]
          ++ [Call.httpError NewRecorder "Rate limit exceeded" 429]) = (2 : Int).toNat ∧
      ∀ next : HandlerFunc, ∃ w1,
        Call.exec detectTextOrGzip next (Call.httpError NewRecorder "Rate limit exceeded" 429) = Res.ret w1 ∧
        w1.Code = if NewRecorder.wroteHeader then NewRecorder.Code else 429 :=
  ⟨by decide, by decide,
    fresh_burst_admits_capacity_then_rejects detectTextOrGzip 2 (by decide)
      [(NewRecorder, NewRequest "GET" "/a"), (NewRecorder, NewRequest "GET" "/b")]
      NewRecorder (NewRequest "GET" "/c") (by decide)⟩

/-! ## One call of `ServeHTTP` -/

/-- C3: for every limiter state, writer, request and downstream handler,
`ServeHTTP` either (bucket non-empty) makes exactly one call, the downstream
handler on the same writer and request, so that the response is whatever the
handler produces, or (bucket empty) makes exactly one call, `http.Error` with
"Rate limit exceeded" and 429, never the handler: that call returns (no panic,
no block) whatever the handler is, the limiter is unchanged, and the status is
429 unless a status had already gone out on that writer. -/
theorem ServeHTTP_delegates_or_rejects (DetectContentType : String → String)
    (rl : RateLimiter) (w : ResponseWriter) (r : Request)
    (next : HandlerFunc) :
    (0 < rl.bucket.len ∧
      (RateLimiter.ServeHTTP rl w r).2 = Call.next w r ∧
      Call.exec DetectContentType next (RateLimiter.ServeHTTP rl w r).2 = next w r) ∨
    (rl.bucket.len ≤ 0 ∧
      (RateLimiter.ServeHTTP rl w r).2 = Call.httpError w "Rate limit exceeded" 429 ∧
      (RateLimiter.ServeHTTP rl w r).1 = rl ∧
      ∃ w1, Call.exec DetectContentType next (RateLimiter.ServeHTTP rl w r).2 = Res.ret w1 ∧
        Call.exec DetectContentType (fun _ _ => Res.panic "next") (RateLimiter.ServeHTTP rl w r).2 = Res.ret w1 ∧
        Call.exec DetectContentType (fun _ _ => Res.block) (RateLimiter.ServeHTTP rl w r).2 = Res.ret w1 ∧
        w1.Code = (if w.wroteHeader then w.Code else 429) ∧
        w1.Body = w.Body ++ ("Rate limit exceeded" ++ "\n")) := by
  by_cases h : 0 < rl.bucket.len
  · left
    rw [ServeHTTP_token rl w r h]
    exact ⟨h, rfl, rfl⟩
  · right
    have h0 : rl.bucket.len ≤ 0 := by omega
    rw [ServeHTTP_empty rl w r h0]
    refine ⟨h0, rfl, rfl, ?_⟩
    cases hw : w.wroteHeader with
    | false =>
      exact ⟨_, Error_fresh DetectContentType w _ 429 hw (by decide) (by decide),
        Error_fresh DetectContentType w _ 429 hw (by decide) (by decide),
        Error_fresh DetectContentType w _ 429 hw (by decide) (by decide), by simp, rfl⟩
    | true =>
      exact ⟨_, Error_wrote DetectContentType w _ 429 hw, Error_wrote DetectContentType w _ 429 hw,
        Error_wrote DetectContentType w _ 429 hw,
        by simp, rfl⟩

/-! ## The rejection response -/

/-- C4, as the claim states it, fails: on an exhausted limiter the rejection
written to a fresh recorder has status 429 but its body is not exactly
"Rate limit exceeded"; `http.Error` ends the message with a newline. -/
theorem rejection_body_has_trailing_newline :
    (RateLimiter.ServeHTTP ⟨1, ⟨1, 0⟩⟩ NewRecorder (NewRequest "GET" "/")).2.isNext = false ∧
    ∃ w1, Call.exec detectTextOrGzip (fun w _ => Res.ret w)
        (RateLimiter.ServeHTTP ⟨1, ⟨1, 0⟩⟩ NewRecorder (NewRequest "GET" "/")).2 = Res.ret w1 ∧
      w1.Code = 429 ∧ w1.Body = "Rate limit exceeded\n" ∧ w1.Body ≠ "Rate limit exceeded" := by
  refine ⟨by decide, _, rfl, by decide, by decide, by decide⟩

/-- C4, amended: for every rejected request, on a writer that has sent nothing
yet, the response has status 429 and its body is exactly the message
"Rate limit exceeded" followed by one newline. -/
theorem rejection_response_is_429_message_newline (DetectContentType : String → String)
    (rl : RateLimiter) (w : ResponseWriter)
    (r : Request) (next : HandlerFunc)
    (hrej : (RateLimiter.ServeHTTP rl w r).2.isNext = false)
    (hw : w.wroteHeader = false) (hb : w.Body = "") :
    ∃ w1, Call.exec DetectContentType next (RateLimiter.ServeHTTP rl w r).2 = Res.ret w1 ∧
      w1.Code = 429 ∧ w1.Body = "Rate limit exceeded\n" := by
  by_cases h : 0 < rl.bucket.len
  · rw [ServeHTTP_token rl w r h] at hrej
    simp [Call.isNext] at hrej
  · have h0 : rl.bucket.len ≤ 0 := by omega
    rw [ServeHTTP_empty rl w r h0]
    refine ⟨_, Error_fresh DetectContentType w _ 429 hw (by decide) (by decide), rfl, ?_⟩
    simp only [hb]
    decide

theorem rejection_response_is_429_message_newline_witness :
    (RateLimiter.ServeHTTP ⟨1, ⟨1, 0⟩⟩ NewRecorder (NewRequest "GET" "/")).2.isNext = false ∧
    NewRecorder.wroteHeader = false ∧ NewRecorder.Body = "" ∧
    ∃ w1, Call.exec detectTextOrGzip (fun w _ => Res.ret w)
        (RateLimiter.ServeHTTP ⟨1, ⟨1, 0⟩⟩ NewRecorder (NewRequest "GET" "/")).2 = Res.ret w1 ∧
      w1.Code = 429 ∧ w1.Body = "Rate limit exceeded\n" :=
  ⟨by decide, by decide, by decide,
    rejection_response_is_429_message_newline detectTextOrGzip ⟨1, ⟨1, 0⟩⟩ NewRecorder (NewRequest "GET" "/")
      (fun w _ => Res.ret w) (by decide) (by decide) (by decide)⟩

/-! ## Runs with ticks -/

/-- C2: for every `c ≥ 0` and every sequence of `ServeHTTP` calls and ticks
applied to the limiter of `NewRateLimiter c`, every stretch of the sequence
without a tick (before the first tick, between two consecutive ticks, after
the last) admits at most `c` requests, and the whole run, with `T` ticks,
admits at most `c * (T + 1)`. -/
theorem admitted_between_ticks_at_most_capacity (c : Int) (hc : 0 ≤ c) (evs : List Event) :
    ∃ rl, NewRateLimiter c = Res.ret rl ∧
      (∀ pre seg post, evs = pre ++ seg ++ post → ticks seg = 0 →
        ∃ rl1 tr1 rl2 tr2, RateLimiter.run rl pre = Res.ret (rl1, tr1) ∧
          RateLimiter.run rl1 seg = Res.ret (rl2, tr2) ∧ (admitted tr2 : Int) ≤ c) ∧
      ∃ rl3 tr, RateLimiter.run rl evs = Res.ret (rl3, tr) ∧
        (admitted tr : Int) ≤ c * ((ticks evs : Int) + 1) := by
  refine ⟨_, NewRateLimiter_ret c hc, ?_, ?_⟩
  · intro pre seg post _ hseg
    obtain ⟨rl1, tr1, hrun1, hwf1, hrps1, _, _⟩ := run_accounting pre _ (NewRateLimiter_WF c hc)
    obtain ⟨rl2, tr2, hrun2, hwf2, _, _, heq⟩ := run_accounting seg rl1 hwf1
    refine ⟨rl1, tr1, rl2, tr2, hrun1, hrun2, ?_⟩
    have h := heq hseg
    obtain ⟨hcap1, _, hle1⟩ := hwf1
    obtain ⟨_, h02, _⟩ := hwf2
    simp only at hrps1
    omega
  · obtain ⟨rl3, tr, hrun, hwf, _, hacc, _⟩ := run_accounting evs _ (NewRateLimiter_WF c hc)
    refine ⟨rl3, tr, hrun, ?_⟩
    obtain ⟨_, h0, _⟩ := hwf
    simp only at hacc
    linarith

theorem admitted_between_ticks_at_most_capacity_witness :
    (0 : Int) ≤ 2 ∧
    ∃ rl, NewRateLimiter 2 = Res.ret rl ∧
      (∀ pre seg post,
        [Event.serve NewRecorder (NewRequest "GET" "/"), Event.serve NewRecorder (NewRequest "GET" "/"),
          Event.serve NewRecorder (NewRequest "GET" "/"), Event.tick,
          Event.serve NewRecorder (NewRequest "GET" "/")] = pre ++ seg ++ post → ticks seg = 0 →
        ∃ rl1 tr1 rl2 tr2, RateLimiter.run rl pre = Res.ret (rl1, tr1) ∧
          RateLimiter.run rl1 seg = Res.ret (rl2, tr2) ∧ (admitted tr2 : Int) ≤ 2) ∧
      ∃ rl3 tr, RateLimiter.run rl
          [Event.serve NewRecorder (NewRequest "GET" "/"), Event.serve NewRecorder (NewRequest "GET" "/"),
            Event.serve NewRecorder (NewRequest "GET" "/"), Event.tick,
            Event.serve NewRecorder (NewRequest "GET" "/")] = Res.ret (rl3, tr) ∧
        (admitted tr : Int) ≤ 2 * ((ticks
          [Event.serve NewRecorder (NewRequest "GET" "/"), Event.serve NewRecorder (NewRequest "GET" "/"),
            Event.serve NewRecorder (NewRequest "GET" "/"), Event.tick,
            Event.serve NewRecorder (NewRequest "GET" "/")] : Int) + 1) :=
  ⟨by decide, admitted_between_ticks_at_most_capacity 2 (by decide) _⟩

/-! ## Refill -/

/-- C5: for every limiter with buffer size `c = requestsPerSecond` and every
number of tokens between `0` (exhausted) and `c`, one tick returns and leaves
exactly `c` tokens, after which exactly `c` further requests are admitted and
the next one is rejected; and with `c = 2` the trace check, check, check, tick,
check on a fresh limiter is admitted, admitted, rejected, admitted. -/
theorem tick_refills_to_capacity (rl : RateLimiter) (hwf : RateLimiter.WF rl)
    (pre : List (ResponseWriter × Request)) (w : ResponseWriter) (r : Request)
    (hlen : (pre.length : Int) = rl.requestsPerSecond) :
    (∃ rl1 rl2, RateLimiter.refill rl = Res.ret rl1 ∧
      rl1.bucket.len = rl.requestsPerSecond ∧
      RateLimiter.run rl1 (serveAll (pre ++ [(w, r)])) = Res.ret
        (rl2, nextAll pre ++ [Call.httpError w "Rate limit exceeded" 429])) ∧
    ∃ rl0 rl3, NewRateLimiter 2 = Res.ret rl0 ∧
      RateLimiter.run rl0
        [Event.serve w r, Event.serve w r, Event.serve w r, Event.tick, Event.serve w r] =
      Res.ret (rl3, [Call.next w r, Call.next w r,
        Call.httpError w "Rate limit exceeded" 429, Call.next w r]) := by
  constructor
  · refine ⟨_, ⟨rl.requestsPerSecond, ⟨rl.bucket.cap, 0⟩⟩, refill_ret rl hwf, rfl, ?_⟩
    exact run_burst_exhaust _ pre w r (by simp only; omega)
  · exact ⟨_, _, rfl, rfl⟩

theorem tick_refills_to_capacity_witness :
    RateLimiter.WF ⟨2, ⟨2, 0⟩⟩ ∧
    (([(NewRecorder, NewRequest "GET" "/a"), (NewRecorder, NewRequest "GET" "/b")].length : Nat)
      : Int) = (⟨2, ⟨2, 0⟩⟩ : RateLimiter).requestsPerSecond ∧
    ((∃ rl1 rl2, RateLimiter.refill ⟨2, ⟨2, 0⟩⟩ = Res.ret rl1 ∧
      rl1.bucket.len = (⟨2, ⟨2, 0⟩⟩ : RateLimiter).requestsPerSecond ∧
      RateLimiter.run rl1 (serveAll
        ([(NewRecorder, NewRequest "GET" "/a"), (NewRecorder, NewRequest "GET" "/b")] ++
          [(NewRecorder, NewRequest "GET" "/c")])) = Res.ret
        (rl2, nextAll [(NewRecorder, NewRequest "GET" "/a"), (NewRecorder, NewRequest "GET" "/b")]
          ++ [Call.httpError NewRecorder "Rate limit exceeded" 429])) ∧
    ∃ rl0 rl3, NewRateLimiter 2 = Res.ret rl0 ∧
      RateLimiter.run rl0
        [Event.serve NewRecorder (NewRequest "GET" "/c"),
          Event.serve NewRecorder (NewRequest "GET" "/c"),
          Event.serve NewRecorder (NewRequest "GET" "/c"), Event.tick,
          Event.serve NewRecorder (NewRequest "GET" "/c")] =
      Res.ret (rl3, [Call.next NewRecorder (NewRequest "GET" "/c"),
        Call.next NewRecorder (NewRequest "GET" "/c"),
        Call.httpError NewRecorder "Rate limit exceeded" 429,
        Call.next NewRecorder (NewRequest "GET" "/c")])) :=
  ⟨⟨rfl, by decide, by decide⟩, by decide,
    tick_refills_to_capacity ⟨2, ⟨2, 0⟩⟩ ⟨rfl, by decide, by decide⟩
      [(NewRecorder, NewRequest "GET" "/a"), (NewRecorder, NewRequest "GET" "/b")]
      NewRecorder (NewRequest "GET" "/c") (by decide)⟩

/-! ## The token count -/

/-- C6: in every state reached from `NewRateLimiter c` (`c ≥ 0`) by any
sequence of `ServeHTTP` calls and ticks (the run always returns), the token
count lies between `0` and `c`; from there a further tick returns and leaves
at most `c` tokens, and a further check leaves at least `0`. -/
theorem tokens_stay_within_capacity (c : Int) (hc : 0 ≤ c) (evs : List Event) :
    ∃ rl rl1 tr, NewRateLimiter c = Res.ret rl ∧
      RateLimiter.run rl evs = Res.ret (rl1, tr) ∧
      0 ≤ rl1.bucket.len ∧ rl1.bucket.len ≤ c ∧
      (∃ rl2, RateLimiter.refill rl1 = Res.ret rl2 ∧ rl2.bucket.len ≤ c) ∧
      ∀ w r, 0 ≤ (RateLimiter.ServeHTTP rl1 w r).1.bucket.len := by
  obtain ⟨rl1, tr, hrun, hwf, hrps, _, _⟩ := run_accounting evs _ (NewRateLimiter_WF c hc)
  refine ⟨_, rl1, tr, NewRateLimiter_ret c hc, hrun, hwf.2.1, ?_, ?_, ?_⟩
  · obtain ⟨hcap, _, hle⟩ := hwf
    simp only at hrps
    omega
  · refine ⟨_, refill_ret rl1 hwf, ?_⟩
    simp only at hrps
    simp only [hrps, le_refl]
  · intro w r
    exact (ServeHTTP_WF rl1 w r hwf).2.1

theorem tokens_stay_within_capacity_witness :
    (0 : Int) ≤ 1 ∧
    ∃ rl rl1 tr, NewRateLimiter 1 = Res.ret rl ∧
      RateLimiter.run rl [Event.serve NewRecorder (NewRequest "GET" "/"), Event.tick,
        Event.tick, Event.serve NewRecorder (NewRequest "GET" "/"),
        Event.serve NewRecorder (NewRequest "GET" "/")] = Res.ret (rl1, tr) ∧
      0 ≤ rl1.bucket.len ∧ rl1.bucket.len ≤ 1 ∧
      (∃ rl2, RateLimiter.refill rl1 = Res.ret rl2 ∧ rl2.bucket.len ≤ 1) ∧
      ∀ w r, 0 ≤ (RateLimiter.ServeHTTP rl1 w r).1.bucket.len :=
  ⟨by decide, tokens_stay_within_capacity 1 (by decide) _⟩

/-- C7: the effect of one `ServeHTTP` call on the token count is the design's
admit step: with at least one token the request is admitted and the count
drops by exactly one, otherwise it is rejected and the count is unchanged;
nothing else of the limiter changes. -/
theorem ServeHTTP_refines_admitStep (rl : RateLimiter) (w : ResponseWriter) (r : Request) :
    ((RateLimiter.ServeHTTP rl w r).1.bucket.len, (RateLimiter.ServeHTTP rl w r).2.isNext)
      = Spec.admitStep rl.bucket.len ∧
    (RateLimiter.ServeHTTP rl w r).1.requestsPerSecond = rl.requestsPerSecond ∧
    (RateLimiter.ServeHTTP rl w r).1.bucket.cap = rl.bucket.cap := by
  by_cases h : 0 < rl.bucket.len
  · have h1 : rl.bucket.len ≥ 1 := by omega
    rw [ServeHTTP_token rl w r h]
    simp [Spec.admitStep, h1, Call.isNext]
  · have h1 : ¬ rl.bucket.len ≥ 1 := by omega
    rw [ServeHTTP_empty rl w r (by omega)]
    simp [Spec.admitStep, h1, Call.isNext]

/-! ## Client keys -/

/-- C8, as the claim states it, fails: on a fresh limiter of capacity one, a
request from 10.0.0.2 alone is admitted, but after a check for a request from
10.0.0.1 the same request is rejected, and the token count it finds has gone
from one to zero. -/
theorem other_key_check_changes_outcome :
    (requestFrom "10.0.0.1:5000").RemoteAddr ≠ (requestFrom "10.0.0.2:5000").RemoteAddr ∧
    NewRateLimiter 1 = Res.ret ⟨1, ⟨1, 1⟩⟩ ∧
    (RateLimiter.ServeHTTP ⟨1, ⟨1, 1⟩⟩ NewRecorder (requestFrom "10.0.0.2:5000")).2
      = Call.next NewRecorder (requestFrom "10.0.0.2:5000") ∧
    (RateLimiter.ServeHTTP
        (RateLimiter.ServeHTTP ⟨1, ⟨1, 1⟩⟩ NewRecorder (requestFrom "10.0.0.1:5000")).1
        NewRecorder (requestFrom "10.0.0.2:5000")).2
      = Call.httpError NewRecorder "Rate limit exceeded" 429 ∧
    (⟨1, ⟨1, 1⟩⟩ : RateLimiter).bucket.len = 1 ∧
    (RateLimiter.ServeHTTP ⟨1, ⟨1, 1⟩⟩ NewRecorder (requestFrom "10.0.0.1:5000")).1.bucket.len
      = 0 := by
  refine ⟨by decide, by decide, by decide, by decide, by decide, by decide⟩

/-- C8, amended: all requests handled by one limiter draw on one shared bucket,
whatever their client key. The limiter after a check and the admit/reject
outcome are the same for any two requests, the count after a check is one less
when a token was there and unchanged otherwise, and the request that comes next,
from whatever key, is admitted exactly when two tokens were there. -/
theorem all_keys_share_one_bucket (rl : RateLimiter) (w1 w2 : ResponseWriter)
    (r1 r2 : Request) :
    (RateLimiter.ServeHTTP rl w1 r1).1 = (RateLimiter.ServeHTTP rl w2 r2).1 ∧
    (RateLimiter.ServeHTTP rl w1 r1).2.isNext = (RateLimiter.ServeHTTP rl w2 r2).2.isNext ∧
    (RateLimiter.ServeHTTP rl w1 r1).1.bucket.len
      = (if 0 < rl.bucket.len then rl.bucket.len - 1 else rl.bucket.len) ∧
    (RateLimiter.ServeHTTP (RateLimiter.ServeHTTP rl w1 r1).1 w2 r2).2.isNext
      = decide (1 < rl.bucket.len) := by
  by_cases h : 0 < rl.bucket.len
  · rw [ServeHTTP_token rl w1 r1 h, ServeHTTP_token rl w2 r2 h]
    refine ⟨rfl, rfl, by simp [h], ?_⟩
    by_cases h2 : 1 < rl.bucket.len
    · rw [ServeHTTP_token _ w2 r2 (by simp only; omega)]
      simp [Call.isNext, h2]
    · rw [ServeHTTP_empty _ w2 r2 (by simp only; omega)]
      simp [Call.isNext, h2]
  · have h0 : rl.bucket.len ≤ 0 := by omega
    have h2 : ¬ 1 < rl.bucket.len := by omega
    rw [ServeHTTP_empty rl w1 r1 h0, ServeHTTP_empty rl w2 r2 h0]
    simp [Call.isNext, h, h2]

/-! ## Construction with a non-positive rate -/

/-- C9, as the claim states it, fails: `NewRateLimiter 0` is not rejected; it
returns a limiter, which then handles a request (by answering 429). -/
theorem zero_rate_limiter_is_constructed :
    (0 : Int) ≤ 0 ∧ NewRateLimiter 0 = Res.ret ⟨0, ⟨0, 0⟩⟩ ∧
    RateLimiter.ServeHTTP ⟨0, ⟨0, 0⟩⟩ NewRecorder (NewRequest "GET" "/")
      = (⟨0, ⟨0, 0⟩⟩, Call.httpError NewRecorder "Rate limit exceeded" 429) := by
  refine ⟨by decide, by decide, by decide⟩

/-- C9, amended: for every `requestsPerSecond < 0` the constructor panics (in
`make`, with a negative size), so no limiter is produced; for
`requestsPerSecond = 0` it returns a limiter, and that limiter admits no
request, whatever sequence of requests and ticks it receives. -/
theorem nonpositive_rate_panics_or_admits_nothing (c : Int) (hc : c ≤ 0) :
    (c < 0 ∧ NewRateLimiter c = Res.panic "makechan: size out of range") ∨
    (c = 0 ∧ ∃ rl, NewRateLimiter c = Res.ret rl ∧
      ∀ evs, ∃ rl1 tr, RateLimiter.run rl evs = Res.ret (rl1, tr) ∧ admitted tr = 0) := by
  by_cases hneg : c < 0
  · exact Or.inl ⟨hneg, NewRateLimiter_panic c hneg⟩
  · have h0 : c = 0 := by omega
    subst h0
    refine Or.inr ⟨rfl, _, NewRateLimiter_ret 0 (le_refl _), ?_⟩
    intro evs
    obtain ⟨rl1, tr, hrun, hwf, _, hacc, _⟩ := run_accounting evs _ (NewRateLimiter_WF 0 (le_refl _))
    refine ⟨rl1, tr, hrun, ?_⟩
    obtain ⟨_, hlen, _⟩ := hwf
    simp only [zero_mul, add_zero] at hacc
    omega

theorem nonpositive_rate_panics_or_admits_nothing_witness :
    (-1 : Int) ≤ 0 ∧
    (((-1 : Int) < 0 ∧ NewRateLimiter (-1) = Res.panic "makechan: size out of range") ∨
    ((-1 : Int) = 0 ∧ ∃ rl, NewRateLimiter (-1) = Res.ret rl ∧
      ∀ evs, ∃ rl1 tr, RateLimiter.run rl evs = Res.ret (rl1, tr) ∧ admitted tr = 0)) :=
  ⟨by decide, nonpositive_rate_panics_or_admits_nothing (-1) (by decide)⟩

/-! ## Concurrent bursts -/

/-- C10: `N` goroutines call `ServeHTTP` on a limiter holding exactly `k < N`
tokens, with no refill during the burst. Under every interleaving of their
steps (the `select` of each call being one atomic channel operation) that lets
every call get past its `select`: exactly `k` are admitted and `N - k`
rejected, the bucket ends empty, and every goroutine makes the call of its own
request. At every point of every interleaving the admitted calls and the tokens
left add up to `k`: no token admits two calls and no decrement is lost. -/
theorem concurrent_burst_admits_exactly_the_tokens (rl : RateLimiter) (k : Nat)
    (reqs : List (ResponseWriter × Request)) (sched : List Nat)
    (hk : rl.bucket.len = (k : Int)) (hN : k < reqs.length)
    (hdone : ∀ g ∈ (Sys.runSched ⟨rl, launch reqs⟩ sched).gs, Goroutine.isPending g = false) :
    (Sys.runSched ⟨rl, launch reqs⟩ sched).gs.countP Goroutine.isAdmitted = k ∧
    (Sys.runSched ⟨rl, launch reqs⟩ sched).gs.countP Goroutine.isRejected = reqs.length - k ∧
    (Sys.runSched ⟨rl, launch reqs⟩ sched).rl.bucket.len = 0 ∧
    List.Forall₂ Goroutine.servedOwn (Sys.runSched ⟨rl, launch reqs⟩ sched).gs reqs ∧
    ∀ sched0 : List Nat,
      (((Sys.runSched ⟨rl, launch reqs⟩ sched0).gs.countP Goroutine.isAdmitted : Nat) : Int)
        + (Sys.runSched ⟨rl, launch reqs⟩ sched0).rl.bucket.len = (k : Int) := by
  have hinit : Sys.Inv (k : Int) reqs ⟨rl, launch reqs⟩ := by
    rw [← hk]
    exact Sys.Inv_launch rl reqs (by omega)
  obtain ⟨hacc, h0, hrej, hfol⟩ := Sys.Inv_runSched (k : Int) reqs sched _ hinit
  have hsum := counts_when_none_pending _ hdone
  have hlen : (Sys.runSched ⟨rl, launch reqs⟩ sched).gs.length = reqs.length :=
    List.Forall₂.length_eq hfol
  have hsome : (Sys.runSched ⟨rl, launch reqs⟩ sched).gs.countP Goroutine.isRejected ≠ 0 := by
    intro hz
    omega
  have hempty := hrej hsome
  refine ⟨by omega, by omega, hempty, servedOwn_when_none_pending _ _ hfol hdone, ?_⟩
  intro sched0
  exact (Sys.Inv_runSched (k : Int) reqs sched0 _ hinit).1

theorem concurrent_burst_admits_exactly_the_tokens_witness :
    (⟨2, ⟨2, 1⟩⟩ : RateLimiter).bucket.len = ((1 : Nat) : Int) ∧
    1 < [(NewRecorder, requestFrom "10.0.0.1:5000"), (NewRecorder, requestFrom "10.0.0.2:5000"),
      (NewRecorder, requestFrom "10.0.0.3:5000")].length ∧
    (∀ g ∈ (Sys.runSched ⟨⟨2, ⟨2, 1⟩⟩, launch
        [(NewRecorder, requestFrom "10.0.0.1:5000"), (NewRecorder, requestFrom "10.0.0.2:5000"),
          (NewRecorder, requestFrom "10.0.0.3:5000")]⟩ [2, 0, 1, 1, 0, 2]).gs,
      Goroutine.isPending g = false) ∧
    (Sys.runSched ⟨⟨2, ⟨2, 1⟩⟩, launch
        [(NewRecorder, requestFrom "10.0.0.1:5000"), (NewRecorder, requestFrom "10.0.0.2:5000"),
          (NewRecorder, requestFrom "10.0.0.3:5000")]⟩ [2, 0, 1, 1, 0, 2]).gs.countP
      Goroutine.isAdmitted = 1 ∧
    (Sys.runSched ⟨⟨2, ⟨2, 1⟩⟩, launch
        [(NewRecorder, requestFrom "10.0.0.1:5000"), (NewRecorder, requestFrom "10.0.0.2:5000"),
          (NewRecorder, requestFrom "10.0.0.3:5000")]⟩ [2, 0, 1, 1, 0, 2]).gs.countP
      Goroutine.isRejected = 2 :=
  ⟨by decide, by decide, by decide,
    (concurrent_burst_admits_exactly_the_tokens ⟨2, ⟨2, 1⟩⟩ 1
      [(NewRecorder, requestFrom "10.0.0.1:5000"), (NewRecorder, requestFrom "10.0.0.2:5000"),
        (NewRecorder, requestFrom "10.0.0.3:5000")] [2, 0, 1, 1, 0, 2]
      (by decide) (by decide) (by decide)).1,
    (concurrent_burst_admits_exactly_the_tokens ⟨2, ⟨2, 1⟩⟩ 1
      [(NewRecorder, requestFrom "10.0.0.1:5000"), (NewRecorder, requestFrom "10.0.0.2:5000"),
        (NewRecorder, requestFrom "10.0.0.3:5000")] [2, 0, 1, 1, 0, 2]
      (by decide) (by decide) (by decide)).2.1⟩

/-! ## internal/shared.go -/

/-- C12: for every key and every list of sensitive keys, `IsSensitiveField` is
true exactly when some element of the list equals the key under the
case-insensitive comparison it is given (`strings.EqualFold`); it is false for
the empty list. On the keys of the test, with ASCII folding: "password" and
"PassWord" are sensitive, "username" is not. -/
theorem IsSensitiveField_iff_some_key_folds (EqualFold : String → String → Bool)
    (key : String) (sensitiveKeys : List String) :
    (IsSensitiveField EqualFold key sensitiveKeys = true ↔
      ∃ sensitiveKey ∈ sensitiveKeys, EqualFold key sensitiveKey = true) ∧
    IsSensitiveField EqualFold key [] = false ∧
    IsSensitiveField asciiEqualFold "password" ["password", "ssn"] = true ∧
    IsSensitiveField asciiEqualFold "PassWord" ["password", "ssn"] = true ∧
    IsSensitiveField asciiEqualFold "username" ["password", "ssn"] = false := by
  refine ⟨?_, rfl, by decide, by decide, by decide⟩
  induction sensitiveKeys with
  | nil => simp [IsSensitiveField]
  | cons k ks ih =>
    by_cases h : EqualFold key k = true
    · simp [IsSensitiveField, h]
    · simp [IsSensitiveField, h, ih]

/-- C13: for every key, values and sensitive keys, `ObfuscateSensitiveData`
returns exactly the one-element list with the mask "********" when the key is
sensitive, whatever `values` holds, and otherwise a list equal to `values`,
element by element and in the same order. -/
theorem ObfuscateSensitiveData_masks_or_copies (EqualFold : String → String → Bool)
    (key : String) (values sensitiveKeys : List String) :
    ObfuscateSensitiveData EqualFold key values sensitiveKeys =
      (if IsSensitiveField EqualFold key sensitiveKeys then ["********"] else values) ∧
    ObfuscateSensitiveData asciiEqualFold "password" ["mysecret"] ["password", "ssn"]
      = ["********"] ∧
    ObfuscateSensitiveData asciiEqualFold "password" [] ["password", "ssn"] = ["********"] ∧
    ObfuscateSensitiveData asciiEqualFold "ssn" ["1", "2"] ["password", "ssn"] = ["********"] ∧
    ObfuscateSensitiveData asciiEqualFold "username" ["john.doe"] ["password", "ssn"]
      = ["john.doe"] := by
  refine ⟨?_, by decide, by decide, by decide, by decide⟩
  by_cases h : IsSensitiveField EqualFold key sensitiveKeys = true
  · simp [ObfuscateSensitiveData, h]
  · simp [ObfuscateSensitiveData, h]

/-! ## Headers -/

theorem Header.find?_Del (h : Header) (key : String) :
    (Header.Del h key).find? (fun p => p.1 == CanonicalMIMEHeaderKey key) = none := by
  rw [List.find?_eq_none]
  intro x hx
  simp only [Header.Del, List.mem_filter, bne_iff_ne, ne_eq] at hx
  simp [hx.2]

/-- After `Set`, `Get` of the same name returns the value set. -/
theorem Header.Get_Set (h : Header) (key value : String) :
    Header.Get (Header.Set h key value) key = value := by
  simp [Header.Get, Header.Set, List.find?_append, Header.find?_Del]

/-- `Set` of one name leaves `Get` of every name with another canonical form as
it was. -/
theorem Header.Get_Set_ne (h : Header) (key value key1 : String)
    (hne : CanonicalMIMEHeaderKey key1 ≠ CanonicalMIMEHeaderKey key) :
    Header.Get (Header.Set h key value) key1 = Header.Get h key1 := by
  simp only [Header.Get, Header.Set, Header.Del]
  generalize CanonicalMIMEHeaderKey key = k at hne ⊢
  generalize CanonicalMIMEHeaderKey key1 = k1 at hne ⊢
  have hfilter : (h.filter (fun p => p.1 != k)).find? (fun p => p.1 == k1)
      = h.find? (fun p => p.1 == k1) := by
    induction h with
    | nil => rfl
    | cons p ps ih =>
      by_cases hp : p.1 = k
      · have hb1 : (p.1 != k) = false := by simp [hp]
        have hb2 : (p.1 == k1) = false := by
          rw [beq_eq_false_iff_ne]
          exact fun h1 => hne (h1.symm.trans hp)
        simp only [List.filter_cons, List.find?_cons, hb1, hb2]
        simpa using ih
      · have hb1 : (p.1 != k) = true := by simp [hp]
        simp only [List.filter_cons, hb1, if_true, List.find?_cons]
        cases hb2 : (p.1 == k1) with
        | true => rfl
        | false => simpa using ih
  have hlast : ¬ k = k1 := fun h1 => hne h1.symm
  simp only [List.find?_append, hfilter]
  cases hfind : h.find? (fun p => p.1 == k1) with
  | some p => simp
  | none => simp [List.find?_cons, hlast]

/-! ## middleware/csrf.go -/

/-- C18: the token is the header value when that is non-empty, whatever the
cookies and the form hold; with an empty header value it is the cookie's value
when the request has the cookie and its value is non-empty; with an empty
header value and no cookie, or a cookie of empty value, it is the form value.
The header value is the one `Header.Get` finds, under the canonical form of the
configured name. Hence a request whose non-empty header token differs from
`CSRFToken` ends in `http.Error`, also when its cookie and its form parameter
carry the right token, as in the example, whose header map is the one that
`req.Header.Set("X-CSRF-Token", "wrong")` leaves. -/
theorem csrf_token_precedence (m : CSRFMiddleware) (r : Request) :
    (Header.Get r.Header m.CSRFHeader ≠ "" →
      CSRFMiddleware.token m r = Header.Get r.Header m.CSRFHeader) ∧
    (Header.Get r.Header m.CSRFHeader = "" → ∀ cookie,
      Request.Cookie r m.CSRFCookie = some cookie → cookie.Value ≠ "" →
      CSRFMiddleware.token m r = cookie.Value) ∧
    (Header.Get r.Header m.CSRFHeader = "" →
      (Request.Cookie r m.CSRFCookie = none ∨
        ∃ cookie, Request.Cookie r m.CSRFCookie = some cookie ∧ cookie.Value = "") →
      CSRFMiddleware.token m r = Request.FormValue r m.CSRFParam) ∧
    (∀ w, Header.Get r.Header m.CSRFHeader ≠ "" →
      Header.Get r.Header m.CSRFHeader ≠ m.CSRFToken →
      CSRFMiddleware.ServeHTTP m w r =
        Call.httpError w "CSRF token validation failed" m.ErrorStatus) ∧
    Header.Set [] "X-CSRF-Token" "wrong" = [("X-Csrf-Token", ["wrong"])] ∧
    CSRFMiddleware.token
      (NewCSRFMiddleware (fun w _ => Res.ret w) "X-CSRF-Token" "csrfCookie" "csrfParam" "abc123" 403)
      { Method := "POST", URL := "/", RemoteAddr := "192.0.2.1:1234",
        Header := [("X-Csrf-Token", ["wrong"])],
        Cookies := [⟨"csrfCookie", "abc123"⟩], Form := [("csrfParam", ["abc123"])] }
      = "wrong" ∧
    CSRFMiddleware.ServeHTTP
      (NewCSRFMiddleware (fun w _ => Res.ret w) "X-CSRF-Token" "csrfCookie" "csrfParam" "abc123" 403)
      NewRecorder
      { Method := "POST", URL := "/", RemoteAddr := "192.0.2.1:1234",
        Header := [("X-Csrf-Token", ["wrong"])],
        Cookies := [⟨"csrfCookie", "abc123"⟩], Form := [("csrfParam", ["abc123"])] }
      = Call.httpError NewRecorder "CSRF token validation failed" 403 := by
  refine ⟨?_, ?_, ?_, ?_, by decide, by decide, by decide⟩
  · intro hh
    simp [CSRFMiddleware.token, hh]
  · intro hh cookie hc hv
    simp [CSRFMiddleware.token, hh, hc, hv]
  · intro hh hc
    rcases hc with hc | ⟨cookie, hc, hv⟩
    · simp [CSRFMiddleware.token, hh, hc]
    · simp [CSRFMiddleware.token, hh, hc, hv]
  · intro w hh hne
    have ht : CSRFMiddleware.token m r = Header.Get r.Header m.CSRFHeader := by
      simp [CSRFMiddleware.token, hh]
    simp [CSRFMiddleware.ServeHTTP, ht, hne]

/-- C14, as the claim states it, fails: with the configured `ErrorStatus` 0 and
the request of the test's second case, whose header map is the one that
`req.Header.Set("X-CSRF-Token", "invalidtoken")` leaves and whose token is
wrong, `ServeHTTP` does not respond with that status; its `http.Error` call
panics in `WriteHeader`. -/
theorem csrf_invalid_status_panics :
    Header.Set [] "X-CSRF-Token" "invalidtoken" = [("X-Csrf-Token", ["invalidtoken"])] ∧
    CSRFMiddleware.token
      (NewCSRFMiddleware (fun w _ => ResponseWriter.Write detectTextOrGzip w "Hello, World!")
        "X-CSRF-Token" "csrfCookie" "csrfParam" "abc123" 0)
      { Method := "GET", URL := "/", RemoteAddr := "192.0.2.1:1234",
        Header := [("X-Csrf-Token", ["invalidtoken"])] } = "invalidtoken" ∧
    CSRFMiddleware.ServeHTTP
      (NewCSRFMiddleware (fun w _ => ResponseWriter.Write detectTextOrGzip w "Hello, World!")
        "X-CSRF-Token" "csrfCookie" "csrfParam" "abc123" 0)
      NewRecorder
      { Method := "GET", URL := "/", RemoteAddr := "192.0.2.1:1234",
        Header := [("X-Csrf-Token", ["invalidtoken"])] }
      = Call.httpError NewRecorder "CSRF token validation failed" 0 ∧
    Call.exec detectTextOrGzip (fun w _ => ResponseWriter.Write detectTextOrGzip w "Hello, World!")
      (CSRFMiddleware.ServeHTTP
        (NewCSRFMiddleware (fun w _ => ResponseWriter.Write detectTextOrGzip w "Hello, World!")
          "X-CSRF-Token" "csrfCookie" "csrfParam" "abc123" 0)
        NewRecorder
        { Method := "GET", URL := "/", RemoteAddr := "192.0.2.1:1234",
          Header := [("X-Csrf-Token", ["invalidtoken"])] })
      = Res.panic "invalid WriteHeader code" := by
  refine ⟨by decide, by decide, by decide, by decide⟩

/-- C14, amended: for every request, `ServeHTTP` ends in `Next` (one call, on
the same writer and request, nothing written before it) if and only if the
token extracted from the request equals `CSRFToken`; otherwise it ends in
`http.Error` with 'CSRF token validation failed' and `ErrorStatus`, never in
`Next`. That call returns when `ErrorStatus` is from 100 to 999 or the writer
has already sent a status: the response status is then the one already sent, if
any, and `ErrorStatus` otherwise, and when that status allows a body the message
and a newline are appended to the body. The call panics when `ErrorStatus` is
outside 100..999 and the writer has sent no status. In the two cases of the
test (token "abc123", status 403, a fresh recorder, the header map as
`req.Header.Set` leaves it) the right token gives status 200 and the body
"Hello, World!", the wrong one status 403. -/
theorem csrf_forwards_iff_token_matches (DetectContentType : String → String)
    (m : CSRFMiddleware) (w : ResponseWriter) (r : Request) :
    ((CSRFMiddleware.ServeHTTP m w r).isNext = true ↔ CSRFMiddleware.token m r = m.CSRFToken) ∧
    (CSRFMiddleware.token m r = m.CSRFToken →
      CSRFMiddleware.ServeHTTP m w r = Call.next w r ∧
      Call.exec DetectContentType m.Next (CSRFMiddleware.ServeHTTP m w r) = m.Next w r) ∧
    (CSRFMiddleware.token m r ≠ m.CSRFToken →
      CSRFMiddleware.ServeHTTP m w r =
        Call.httpError w "CSRF token validation failed" m.ErrorStatus ∧
      (w.wroteHeader = true ∨ (100 ≤ m.ErrorStatus ∧ m.ErrorStatus ≤ 999) → ∃ w1,
        Call.exec DetectContentType m.Next (CSRFMiddleware.ServeHTTP m w r) = Res.ret w1 ∧
        w1.Code = (if w.wroteHeader then w.Code else m.ErrorStatus) ∧
        (bodyAllowedForStatus w1.Code = true →
          w1.Body = w.Body ++ ("CSRF token validation failed" ++ "\n"))) ∧
      (w.wroteHeader = false → ¬ (100 ≤ m.ErrorStatus ∧ m.ErrorStatus ≤ 999) →
        Call.exec DetectContentType m.Next (CSRFMiddleware.ServeHTTP m w r)
          = Res.panic "invalid WriteHeader code")) ∧
    Call.exec detectTextOrGzip (fun w0 _ => ResponseWriter.Write detectTextOrGzip w0 "Hello, World!")
      (CSRFMiddleware.ServeHTTP
        (NewCSRFMiddleware (fun w0 _ => ResponseWriter.Write detectTextOrGzip w0 "Hello, World!")
          "X-CSRF-Token" "csrfCookie" "csrfParam" "abc123" 403)
        NewRecorder
        { Method := "GET", URL := "/", RemoteAddr := "192.0.2.1:1234",
          Header := Header.Set [] "X-CSRF-Token" "abc123" })
      = Res.ret { Code := 200, HeaderMap := [("Content-Type", ["text/plain; charset=utf-8"])],
                  Body := "Hello, World!", wroteHeader := true } ∧
    Call.exec detectTextOrGzip (fun w0 _ => ResponseWriter.Write detectTextOrGzip w0 "Hello, World!")
      (CSRFMiddleware.ServeHTTP
        (NewCSRFMiddleware (fun w0 _ => ResponseWriter.Write detectTextOrGzip w0 "Hello, World!")
          "X-CSRF-Token" "csrfCookie" "csrfParam" "abc123" 403)
        NewRecorder
        { Method := "GET", URL := "/", RemoteAddr := "192.0.2.1:1234",
          Header := Header.Set [] "X-CSRF-Token" "invalidtoken" })
      = Res.ret { Code := 403,
                  HeaderMap := [("Content-Type", ["text/plain; charset=utf-8"]),
                    ("X-Content-Type-Options", ["nosniff"])],
                  Body := "CSRF token validation failed\n", wroteHeader := true } := by
  refine ⟨?_, ?_, ?_, by decide, by decide⟩
  · by_cases ht : CSRFMiddleware.token m r = m.CSRFToken
    · simp [CSRFMiddleware.ServeHTTP, Call.isNext, ht]
    · simp [CSRFMiddleware.ServeHTTP, Call.isNext, ht]
  · intro ht
    have hs : CSRFMiddleware.ServeHTTP m w r = Call.next w r := by
      simp [CSRFMiddleware.ServeHTTP, ht]
    exact ⟨hs, by rw [hs]; rfl⟩
  · intro ht
    have hs : CSRFMiddleware.ServeHTTP m w r =
        Call.httpError w "CSRF token validation failed" m.ErrorStatus := by
      simp [CSRFMiddleware.ServeHTTP, ht]
    refine ⟨hs, ?_, ?_⟩
    · intro hok
      rw [hs]
      cases hw : w.wroteHeader with
      | true => exact ⟨_, Error_wrote DetectContentType w _ _ hw, by simp, fun _ => rfl⟩
      | false =>
        rcases hok with hok | ⟨hlo, hhi⟩
        · rw [hw] at hok
          cases hok
        · exact ⟨_, Error_fresh DetectContentType w _ _ hw hlo hhi, by simp, fun _ => rfl⟩
    · intro hw hbad
      rw [hs]
      have hc : m.ErrorStatus < 100 ∨ 999 < m.ErrorStatus := by omega
      simp [Call.exec, Error, ResponseWriter.WriteHeader, hw, hc]

/-! ## middleware/csp.go -/

/-- C17: for every CSP string `s`, `Next` handler, writer and request,
`NewCSPMiddleware(next, s).ServeHTTP` makes one call, `Next` on the same request
and on the writer whose Content-Security-Policy header has been set to exactly
`s` and which is otherwise as it was: same status and body, and the same value
under every header name whose canonical form is not Content-Security-Policy
(a name that differs from it in letter case only reads `s` as well). So the
response is what `Next` makes of that writer: the header equals `s` whenever
`Next` leaves it alone, and the body is what `Next` wrote. In the test, on a
fresh recorder with a `Next` that writes "Hello, World!", the recorder ends
with that body, the policy header, and the content type its first write
detected. -/
theorem csp_sets_header_then_calls_next (DetectContentType : String → String) (s : String)
    (next : HandlerFunc) (w : ResponseWriter) (r : Request) :
    ∃ w1, CSPMiddleware.ServeHTTP (NewCSPMiddleware next s) w r = Call.next w1 r ∧
      w1.HeaderMap = Header.Set w.HeaderMap "Content-Security-Policy" s ∧
      Header.Get w1.HeaderMap "Content-Security-Policy" = s ∧
      w1.Code = w.Code ∧ w1.Body = w.Body ∧ w1.wroteHeader = w.wroteHeader ∧
      (∀ key, CanonicalMIMEHeaderKey key ≠ "Content-Security-Policy" →
        Header.Get w1.HeaderMap key = Header.Get w.HeaderMap key) ∧
      (∀ key, CanonicalMIMEHeaderKey key = "Content-Security-Policy" →
        Header.Get w1.HeaderMap key = s) ∧
      Call.exec DetectContentType (NewCSPMiddleware next s).Next
        (CSPMiddleware.ServeHTTP (NewCSPMiddleware next s) w r) = next w1 r ∧
      (∀ w2, next w1 r = Res.ret w2 →
        Header.Get w2.HeaderMap "Content-Security-Policy"
          = Header.Get w1.HeaderMap "Content-Security-Policy" →
        Header.Get w2.HeaderMap "Content-Security-Policy" = s) ∧
      Call.exec detectTextOrGzip
        (fun w0 _ => ResponseWriter.Write detectTextOrGzip w0 "Hello, World!")
        (CSPMiddleware.ServeHTTP
          (NewCSPMiddleware (fun w0 _ => ResponseWriter.Write detectTextOrGzip w0 "Hello, World!")
            "default-src 'self'; script-src 'unsafe-inline'")
          NewRecorder (NewRequest "GET" "/"))
        = Res.ret { Code := 200,
                    HeaderMap := [("Content-Security-Policy",
                        ["default-src 'self'; script-src 'unsafe-inline'"]),
                      ("Content-Type", ["text/plain; charset=utf-8"])],
                    Body := "Hello, World!", wroteHeader := true } := by
  have hcanon : CanonicalMIMEHeaderKey "Content-Security-Policy" = "Content-Security-Policy" := by
    decide
  refine ⟨{ w with HeaderMap := Header.Set w.HeaderMap "Content-Security-Policy" s },
    rfl, rfl, Header.Get_Set _ _ _, rfl, rfl, rfl, ?_, ?_, rfl, ?_, by decide⟩
  · intro key hkey
    exact Header.Get_Set_ne _ _ _ _ (by rw [hcanon]; exact hkey)
  · intro key hkey
    have hsame : ∀ h : Header, Header.Get h key = Header.Get h "Content-Security-Policy" := by
      intro h
      simp only [Header.Get, hkey, hcanon]
    rw [hsame]
    exact Header.Get_Set _ _ _
  · intro w2 _ hkeep
    rw [hkeep]
    exact Header.Get_Set _ _ _

/-! ## `http.Error` as calls on a recorder -/

/-- On a recorder, the calls of `http.Error` return whenever the status is from
100 to 999 or a status has already gone out: the headers are reset, the status
is `code` unless one had gone out, and the message and a newline are appended. -/
theorem ErrorCalls_run (DetectContentType : String → String)
    (w : ResponseWriter) (error : String) (code : Int)
    (h : w.wroteHeader = true ∨ (100 ≤ code ∧ code ≤ 999)) :
    Prog.runOn (recorderWriter DetectContentType) (ErrorCalls error code) w =
      ({ Code := if w.wroteHeader then w.Code else code,
         HeaderMap := Header.Set (Header.Set (Header.Del w.HeaderMap "Content-Length")
           "Content-Type" "text/plain; charset=utf-8") "X-Content-Type-Options" "nosniff",
         Body := w.Body ++ (error ++ "\n"),
         wroteHeader := true }, Res.ret ()) := by
  cases hw : w.wroteHeader with
  | true =>
    simp [ErrorCalls, Prog.runOn, recorderWriter, ResponseWriter.WriteHeader,
      ResponseWriter.Write, hw]
  | false =>
    rcases h with h | ⟨hlo, hhi⟩
    · rw [hw] at h
      cases h
    · have hc : ¬ (code < 100 ∨ 999 < code) := by omega
      simp [ErrorCalls, Prog.runOn, recorderWriter, ResponseWriter.WriteHeader,
        ResponseWriter.Write, hw, hc]

/-! ## middleware/recover.go -/

/-- C15, as the claim states it, fails: a handler that writes status 200 and
"Hello" and then panics leaves, after recovery, a response whose status is 200,
not 500, with the error message appended to the body. -/
theorem recovery_after_status_written_keeps_status :
    RecoveryMiddleware.ServeHTTP detectTextOrGzip
      (NewRecoveryMiddleware (fun _ => Prog.writeHeader 200
        (Prog.write "Hello" (fun _ => Prog.halt (Res.panic "test panic")))))
      NewRecorder (NewRequest "GET" "http://example.com/test")
    = ({ Code := 200,
         HeaderMap := [("Content-Type", ["text/plain; charset=utf-8"]),
           ("X-Content-Type-Options", ["nosniff"])],
         Body := "HelloInternal Server Error\n", wroteHeader := true }, Res.ret ()) ∧
    (200 : Int) ≠ StatusInternalServerError := by
  refine ⟨by decide, by decide⟩

/-- C15, amended: for every `Next` handler, writer and request, `ServeHTTP`
never ends in a panic. If `Next` panics, it returns normally after
`http.Error(w, "Internal Server Error", 500)`: the message and a newline are
appended to what `Next` had written, and the status is 500 when `Next` had not
yet written a status, otherwise the status `Next` wrote stands. If `Next`
returns, the response is exactly what `Next` produced. With the handler of the
test, which panics at once, the recorder ends with status 500. -/
theorem recovery_never_panics (DetectContentType : String → String)
    (m : RecoveryMiddleware) (w : ResponseWriter) (r : Request) :
    (∀ msg, (RecoveryMiddleware.ServeHTTP DetectContentType m w r).2 ≠ Res.panic msg) ∧
    (∀ w1 msg, Handler.ServeHTTP DetectContentType m.Next w r = (w1, Res.panic msg) →
      ∃ w2, RecoveryMiddleware.ServeHTTP DetectContentType m w r = (w2, Res.ret ()) ∧
        w2.Code = (if w1.wroteHeader then w1.Code else 500) ∧
        w2.Body = w1.Body ++ ("Internal Server Error" ++ "\n")) ∧
    (∀ w1, Handler.ServeHTTP DetectContentType m.Next w r = (w1, Res.ret ()) →
      RecoveryMiddleware.ServeHTTP DetectContentType m w r = (w1, Res.ret ())) ∧
    (RecoveryMiddleware.ServeHTTP DetectContentType
        (NewRecoveryMiddleware (fun _ => Prog.halt (Res.panic "test panic")))
        NewRecorder (NewRequest "GET" "http://example.com/test")).1.Code = 500 := by
  have hrec : ∀ w1 : ResponseWriter,
      Prog.runOn (recorderWriter DetectContentType)
          (ErrorCalls "Internal Server Error" StatusInternalServerError) w1
        = ({ Code := if w1.wroteHeader then w1.Code else 500,
             HeaderMap := Header.Set (Header.Set (Header.Del w1.HeaderMap "Content-Length")
               "Content-Type" "text/plain; charset=utf-8") "X-Content-Type-Options" "nosniff",
             Body := w1.Body ++ ("Internal Server Error" ++ "\n"),
             wroteHeader := true }, Res.ret ()) := fun w1 =>
    ErrorCalls_run DetectContentType w1 _ 500 (Or.inr ⟨by decide, by decide⟩)
  refine ⟨?_, ?_, ?_, rfl⟩
  · intro msg
    unfold RecoveryMiddleware.ServeHTTP
    rcases hn : Handler.ServeHTTP DetectContentType m.Next w r with ⟨w1, e⟩
    cases e with
    | ret u => simp
    | panic m1 => simp [hrec]
    | block => simp
  · intro w1 msg hn
    refine ⟨{ Code := if w1.wroteHeader then w1.Code else 500,
              HeaderMap := Header.Set (Header.Set (Header.Del w1.HeaderMap "Content-Length")
                "Content-Type" "text/plain; charset=utf-8") "X-Content-Type-Options" "nosniff",
              Body := w1.Body ++ ("Internal Server Error" ++ "\n"),
              wroteHeader := true }, ?_, rfl, rfl⟩
    simp only [RecoveryMiddleware.ServeHTTP, hn, hrec]
  · intro w1 hn
    simp only [RecoveryMiddleware.ServeHTTP, hn]

/-! ## middleware/prometheus.go: the response writer -/

theorem wrapInt64_add (a n : Int) : wrapInt64 (wrapInt64 a + n) = wrapInt64 (a + n) := by
  unfold wrapInt64
  omega

theorem wrapInt64_of_range (x : Int) (hlo : -9223372036854775808 ≤ x)
    (hhi : x < 9223372036854775808) : wrapInt64 x = x := by
  unfold wrapInt64
  omega

/-- Calls on the wrapper, from any state of it: the embedded writer goes through
what it would go through alone, the size grows by the counts it returns, and the
status code is the last one passed to `WriteHeader`, if any. -/
theorem prometheus_calls_from {W : Type} (I : Writer W) (cs : List WriterCall) :
    ∀ rw : prometheusResponseWriter W,
    (prometheusResponseWriter.calls I rw cs).ResponseWriter
      = (Writer.calls I rw.ResponseWriter cs).1 ∧
    (prometheusResponseWriter.calls I rw cs).size
      = (if (Writer.calls I rw.ResponseWriter cs).2 = [] then rw.size
         else wrapInt64 (rw.size + (Writer.calls I rw.ResponseWriter cs).2.sum)) ∧
    (prometheusResponseWriter.calls I rw cs).statusCode
      = (lastWriteHeader cs).getD rw.statusCode := by
  induction cs with
  | nil =>
    intro rw
    simp [prometheusResponseWriter.calls, Writer.calls, lastWriteHeader]
  | cons c cs ih =>
    intro rw
    cases c with
    | Write b =>
      rcases hw : I.write rw.ResponseWriter b with ⟨w1, e⟩
      cases e with
      | ret n =>
        obtain ⟨h1, h2, h3⟩ := ih { rw with ResponseWriter := w1, size := wrapInt64 (rw.size + n) }
        simp only [prometheusResponseWriter.calls, prometheusResponseWriter.Write, hw,
          Writer.calls, lastWriteHeader]
        refine ⟨h1, ?_, h3⟩
        rw [h2]
        simp only [List.sum_cons, reduceCtorEq, if_false]
        split
        · rename_i hnil
          simp [hnil]
        · rw [wrapInt64_add]
          congr 1
          ring
      | panic msg =>
        obtain ⟨h1, h2, h3⟩ := ih { rw with ResponseWriter := w1 }
        simp only [prometheusResponseWriter.calls, prometheusResponseWriter.Write, hw,
          Writer.calls, lastWriteHeader]
        exact ⟨h1, h2, h3⟩
      | block =>
        obtain ⟨h1, h2, h3⟩ := ih { rw with ResponseWriter := w1 }
        simp only [prometheusResponseWriter.calls, prometheusResponseWriter.Write, hw,
          Writer.calls, lastWriteHeader]
        exact ⟨h1, h2, h3⟩
    | WriteHeader code =>
      obtain ⟨h1, h2, h3⟩ := ih { rw with statusCode := code,
                                          ResponseWriter := (I.writeHeader rw.ResponseWriter code).1 }
      simp only [prometheusResponseWriter.calls, prometheusResponseWriter.WriteHeader,
        Writer.calls, lastWriteHeader]
      refine ⟨h1, h2, ?_⟩
      rw [h3]
      cases lastWriteHeader cs <;> rfl

/-- C20: for the writer that `NewPrometheusResponseWriter` makes around any
writer and for any sequence of `Write` and `WriteHeader` calls on it, `Size()`
is the sum of the byte counts that the embedded writer's `Write` calls returned,
held in an `int64` (so equal to the sum itself whenever that fits, and 0 when
there was no such call); the tracked status code is 200 until `WriteHeader` is
called and afterwards the code of the most recent `WriteHeader` call; the
embedded writer sees the calls as if made on it directly. On a recorder, writing
"Hello", then status 404, then ", World!", then status 500 gives size 13 and
tracked status 500. -/
theorem prometheus_writer_tracks_size_and_status (DetectContentType : String → String)
    {W : Type} (I : Writer W) (w : W)
    (cs : List WriterCall) :
    prometheusResponseWriter.Size
        (prometheusResponseWriter.calls I (NewPrometheusResponseWriter w) cs)
      = wrapInt64 (Writer.calls I w cs).2.sum ∧
    (-9223372036854775808 ≤ (Writer.calls I w cs).2.sum ∧
        (Writer.calls I w cs).2.sum < 9223372036854775808 →
      prometheusResponseWriter.Size
          (prometheusResponseWriter.calls I (NewPrometheusResponseWriter w) cs)
        = (Writer.calls I w cs).2.sum) ∧
    ((Writer.calls I w cs).2 = [] →
      prometheusResponseWriter.Size
          (prometheusResponseWriter.calls I (NewPrometheusResponseWriter w) cs) = 0) ∧
    (prometheusResponseWriter.calls I (NewPrometheusResponseWriter w) cs).statusCode
      = (lastWriteHeader cs).getD 200 ∧
    (prometheusResponseWriter.calls I (NewPrometheusResponseWriter w) cs).ResponseWriter
      = (Writer.calls I w cs).1 ∧
    prometheusResponseWriter.Size (prometheusResponseWriter.calls (recorderWriter DetectContentType)
        (NewPrometheusResponseWriter NewRecorder)
        [WriterCall.Write "Hello", WriterCall.WriteHeader 404, WriterCall.Write ", World!",
          WriterCall.WriteHeader 500]) = 13 ∧
    (prometheusResponseWriter.calls (recorderWriter DetectContentType) (NewPrometheusResponseWriter NewRecorder)
        [WriterCall.Write "Hello", WriterCall.WriteHeader 404, WriterCall.Write ", World!",
          WriterCall.WriteHeader 500]).statusCode = 500 := by
  obtain ⟨h1, h2, h3⟩ := prometheus_calls_from I cs (NewPrometheusResponseWriter w)
  have hsize : prometheusResponseWriter.Size
        (prometheusResponseWriter.calls I (NewPrometheusResponseWriter w) cs)
      = wrapInt64 (Writer.calls I w cs).2.sum := by
    have h2a : (prometheusResponseWriter.calls I (NewPrometheusResponseWriter w) cs).size
        = (if (Writer.calls I w cs).2 = [] then 0
           else wrapInt64 (0 + (Writer.calls I w cs).2.sum)) := h2
    simp only [prometheusResponseWriter.Size, h2a, zero_add]
    by_cases hnil : (Writer.calls I w cs).2 = []
    · rw [if_pos hnil, hnil]
      rfl
    · rw [if_neg hnil]
  refine ⟨hsize, ?_, ?_, h3, h1, rfl, rfl⟩
  · rintro ⟨hlo, hhi⟩
    rw [hsize]
    exact wrapInt64_of_range _ hlo hhi
  · intro hnil
    rw [hsize, hnil]
    rfl

/-! ## middleware/datadog.go -/

/-- A handler run behind the interface on a plain recorder is the handler run on
the recorder: the dynamic type stays what it was. -/
theorem runOn_anyWriter_recorder (DetectContentType : String → String)
    (p : Prog) : ∀ w : ResponseWriter,
    Prog.runOn (anyWriter DetectContentType) p (AnyWriter.recorder w)
      = (AnyWriter.recorder (Prog.runOn (recorderWriter DetectContentType) p w).1,
          (Prog.runOn (recorderWriter DetectContentType) p w).2) := by
  induction p with
  | halt e => intro w; rfl
  | headerGet key k ih =>
    intro w
    simp only [Prog.runOn]
    exact ih _ w
  | headerSet key value rest ih =>
    intro w
    simp only [Prog.runOn]
    exact ih _
  | headerDel key rest ih =>
    intro w
    simp only [Prog.runOn]
    exact ih _
  | writeHeader code rest ih =>
    intro w
    simp only [Prog.runOn, anyWriter]
    rcases hw : (recorderWriter DetectContentType).writeHeader w code with ⟨w1, e⟩
    cases e with
    | ret u => simpa using ih w1
    | panic msg => simp
    | block => simp
  | write b k ih =>
    intro w
    simp only [Prog.runOn, anyWriter]
    rcases hw : (recorderWriter DetectContentType).write w b with ⟨w1, e⟩
    cases e with
    | ret n => simpa using ih n w1
    | panic msg => simp
    | block => simp

/-- C19, at the failing inputs: for every writer whose dynamic type is not
`*datadogResponseWriter` (here a recorder) and every `Next` that returns,
`DatadogMiddleware.ServeHTTP` runs `Next` once, sends the duration and the
count, and then panics in the type assertion; the status, method and path
metrics are never sent. -/
theorem datadog_plain_writer_panics (DetectContentType : String → String)
    (StatusText : Int → String) (m : DatadogMiddleware)
    (w : ResponseWriter) (r : Request)
    (hnext : (Handler.ServeHTTP DetectContentType m.Next w r).2 = Res.ret ()) :
    DatadogMiddleware.ServeHTTP DetectContentType StatusText m (AnyWriter.recorder w) r =
      ((AnyWriter.recorder (Handler.ServeHTTP DetectContentType m.Next w r).1,
        ["http.request.duration", "http.request.count"]),
       Res.panic "interface conversion: http.ResponseWriter is not *middleware.datadogResponseWriter") := by
  unfold Handler.ServeHTTP at hnext
  simp only [DatadogMiddleware.ServeHTTP, runOn_anyWriter_recorder DetectContentType, hnext,
    Handler.ServeHTTP]

theorem datadog_plain_writer_panics_witness :
    (Handler.ServeHTTP detectTextOrGzip (NewDatadogMiddleware DummyHandler).Next NewRecorder
      (NewRequest "GET" "/")).2 = Res.ret () ∧
    DatadogMiddleware.ServeHTTP detectTextOrGzip (fun _ => "OK") (NewDatadogMiddleware DummyHandler)
        (AnyWriter.recorder NewRecorder) (NewRequest "GET" "/") =
      ((AnyWriter.recorder (Handler.ServeHTTP detectTextOrGzip (NewDatadogMiddleware DummyHandler).Next
          NewRecorder (NewRequest "GET" "/")).1,
        ["http.request.duration", "http.request.count"]),
       Res.panic "interface conversion: http.ResponseWriter is not *middleware.datadogResponseWriter") :=
  ⟨by decide, datadog_plain_writer_panics detectTextOrGzip (fun _ => "OK") (NewDatadogMiddleware DummyHandler)
    NewRecorder (NewRequest "GET" "/") (by decide)⟩

/-! ## middleware/gzip.go -/

/-- `Del` of one name leaves `Get` of every name with another canonical form as
it was. -/
theorem Header.Get_Del_ne (h : Header) (key key1 : String)
    (hne : CanonicalMIMEHeaderKey key1 ≠ CanonicalMIMEHeaderKey key) :
    Header.Get (Header.Del h key) key1 = Header.Get h key1 := by
  simp only [Header.Get, Header.Del]
  generalize CanonicalMIMEHeaderKey key = k at hne ⊢
  generalize CanonicalMIMEHeaderKey key1 = k1 at hne ⊢
  have hfilter : (h.filter (fun p => p.1 != k)).find? (fun p => p.1 == k1)
      = h.find? (fun p => p.1 == k1) := by
    induction h with
    | nil => rfl
    | cons p ps ih =>
      by_cases hp : p.1 = k
      · have hb1 : (p.1 != k) = false := by simp [hp]
        have hb2 : (p.1 == k1) = false := by
          rw [beq_eq_false_iff_ne]
          exact fun h1 => hne (h1.symm.trans hp)
        simp only [List.filter_cons, List.find?_cons, hb1, hb2]
        simpa using ih
      · have hb1 : (p.1 != k) = true := by simp [hp]
        simp only [List.filter_cons, hb1, if_true, List.find?_cons]
        cases hb2 : (p.1 == k1) with
        | true => rfl
        | false => simpa using ih
  rw [hfilter]

/-- Sniffing the content type changes nothing but the header map, and there
nothing but Content-Type. -/
theorem sniff_frame (DetectContentType : String → String) (w : ResponseWriter) (b : String) :
    (ResponseWriter.sniff DetectContentType w b).Code = w.Code ∧
    (ResponseWriter.sniff DetectContentType w b).Body = w.Body ∧
    (ResponseWriter.sniff DetectContentType w b).wroteHeader = w.wroteHeader ∧
    ∀ key, CanonicalMIMEHeaderKey key ≠ CanonicalMIMEHeaderKey "Content-Type" →
      Header.Get (ResponseWriter.sniff DetectContentType w b).HeaderMap key
        = Header.Get w.HeaderMap key := by
  unfold ResponseWriter.sniff
  split
  · exact ⟨rfl, rfl, rfl, fun key hkey => Header.Get_Set_ne _ _ _ _ hkey⟩
  · exact ⟨rfl, rfl, rfl, fun _ _ => rfl⟩

theorem recorderWriter_writeHeader_eq (DetectContentType : String → String)
    (w : ResponseWriter) (code : Int) :
    (recorderWriter DetectContentType).writeHeader w code =
      (if w.wroteHeader then (w, Res.ret ())
       else if code < 100 ∨ 999 < code then (w, Res.panic "invalid WriteHeader code")
       else ({ w with Code := code, wroteHeader := true }, Res.ret ())) := by
  cases hw : w.wroteHeader with
  | true => simp [recorderWriter, ResponseWriter.WriteHeader, hw]
  | false =>
    by_cases hc : code < 100 ∨ 999 < code
    · simp [recorderWriter, ResponseWriter.WriteHeader, hw, hc]
    · simp [recorderWriter, ResponseWriter.WriteHeader, hw, hc]

/-- A `Write` on a recorder returns the length of what it was given, after
appending it; a first write sniffs the content type and sends status 200. -/
theorem recorderWriter_write_eq (DetectContentType : String → String)
    (w : ResponseWriter) (b : String) :
    (recorderWriter DetectContentType).write w b =
      ({ Code := if w.wroteHeader then w.Code else 200,
         HeaderMap := if w.wroteHeader then w.HeaderMap
           else (ResponseWriter.sniff DetectContentType w b).HeaderMap,
         Body := w.Body ++ b, wroteHeader := true }, Res.ret (b.utf8ByteSize : Int)) := by
  obtain ⟨_, h2, h3, _⟩ := sniff_frame DetectContentType w b
  cases hw : w.wroteHeader with
  | true => simp [recorderWriter, ResponseWriter.Write, hw, Res.bind]
  | false =>
    rw [hw] at h3
    simp [recorderWriter, ResponseWriter.Write, ResponseWriter.WriteHeader, hw, h2, h3, Res.bind]

/-- A `Write` on a recorder leaves every header but Content-Type as it was. -/
theorem recorderWriter_write_header (DetectContentType : String → String)
    (w : ResponseWriter) (b key : String)
    (hkey : CanonicalMIMEHeaderKey key ≠ CanonicalMIMEHeaderKey "Content-Type") :
    Header.Get ((recorderWriter DetectContentType).write w b).1.HeaderMap key
      = Header.Get w.HeaderMap key := by
  rw [recorderWriter_write_eq]
  cases hw : w.wroteHeader with
  | true => simp
  | false =>
    simp only [Bool.false_eq_true, if_false]
    exact (sniff_frame DetectContentType w b).2.2.2 key hkey

/-- The stand-in codec reads back what it wrote. -/
theorem markCodec_gunzip (level : Int) (b : String) :
    markCodec.gunzip (markCodec.header level ++ markCodec.finish level b) = some b := by
  simp only [markCodec]
  have h : (gzipMagic ++ (b ++ "END")).toList = gzipMagic.toList ++ (b.toList ++ "END".toList) := by
    simp [String.data_append]
  have hlen : gzipMagic.toList.length = 3 := by decide
  have hend : "END".toList.length = 3 := by decide
  rw [h, List.drop_left' hlen]
  simp only [List.length_append, hlen, hend]
  have hsub : 3 + (b.toList.length + 3) - 6 = b.toList.length := by omega
  rw [hsub, List.take_left']
  · rfl
  · rfl

/-- A `Write` on the wrapped writer, while the gzip writer is open: a first
write sends the gzip header to the embedded writer; the bytes join the input
and their length is returned. -/
theorem gzip_write_eq (DetectContentType : String → String) (codec : GzipCodec)
    (grw : GzipResponseWriter) (b : String) (hclosed : grw.gz.closed = false) :
    GzipResponseWriter.Write DetectContentType codec grw b =
      ({ ResponseWriter :=
            if grw.gz.wroteHeader then grw.ResponseWriter
            else ((recorderWriter DetectContentType).write grw.ResponseWriter
              (codec.header grw.gz.level)).1,
         gz := { level := grw.gz.level, wroteHeader := true, input := grw.gz.input ++ b,
                 closed := false } },
        Res.ret (b.utf8ByteSize : Int)) := by
  cases hgw : grw.gz.wroteHeader with
  | true =>
    simp only [GzipResponseWriter.Write, hclosed, Bool.false_eq_true, if_false, hgw, if_true]
  | false =>
    simp only [GzipResponseWriter.Write, hclosed, Bool.false_eq_true, if_false, hgw,
      recorderWriter_write_eq]

theorem gzip_write_inv (DetectContentType : String → String) (codec : GzipCodec) (level : Int)
    (base acc : String) (grw : GzipResponseWriter) (b : String)
    (hinv : GzipInv codec level base acc grw) :
    (GzipResponseWriter.Write DetectContentType codec grw b).2 = Res.ret (b.utf8ByteSize : Int) ∧
    GzipInv codec level base (acc ++ b) (GzipResponseWriter.Write DetectContentType codec grw b).1 ∧
    (GzipResponseWriter.Write DetectContentType codec grw b).1.gz.wroteHeader = true ∧
    ∀ key, CanonicalMIMEHeaderKey key ≠ CanonicalMIMEHeaderKey "Content-Type" →
      Header.Get (GzipResponseWriter.Write DetectContentType codec grw b).1.ResponseWriter.HeaderMap
          key
        = Header.Get grw.ResponseWriter.HeaderMap key := by
  obtain ⟨h1, h2, h3, h4, h5⟩ := hinv
  rw [gzip_write_eq DetectContentType codec grw b h2]
  refine ⟨rfl, ⟨h1, rfl, ?_, ?_, ?_⟩, rfl, ?_⟩
  · show grw.gz.input ++ b = acc ++ b
    rw [h3]
  · show (if grw.gz.wroteHeader then grw.ResponseWriter
        else ((recorderWriter DetectContentType).write grw.ResponseWriter
          (codec.header grw.gz.level)).1).Body
      = base ++ (if true = true then codec.header level else "")
    cases hgw : grw.gz.wroteHeader with
    | true =>
      rw [hgw] at h4
      simpa using h4
    | false =>
      rw [hgw] at h4
      rw [recorderWriter_write_eq]
      simp only [Bool.false_eq_true, if_false, String.append_empty] at h4
      simp only [Bool.false_eq_true, if_false, if_true, h4, h1]
  · intro hf
    cases hf
  · intro key hkey
    show Header.Get (if grw.gz.wroteHeader then grw.ResponseWriter
        else ((recorderWriter DetectContentType).write grw.ResponseWriter
          (codec.header grw.gz.level)).1).HeaderMap key
      = Header.Get grw.ResponseWriter.HeaderMap key
    cases hgw : grw.gz.wroteHeader with
    | true => rfl
    | false =>
      simp only [Bool.false_eq_true, if_false]
      exact recorderWriter_write_header _ _ _ _ hkey

/-- While a handler runs on the wrapped writer, the gzip writer stays open and
takes exactly the bytes the handler writes. -/
theorem gzip_run_inv (DetectContentType : String → String) (codec : GzipCodec) (level : Int)
    (base : String) (p : Prog) :
    ∀ (acc : String) (grw : GzipResponseWriter), GzipInv codec level base acc grw →
    GzipInv codec level base
      (acc ++ Prog.outputOn (gzipResponseWriter DetectContentType codec) p grw)
      (Prog.runOn (gzipResponseWriter DetectContentType codec) p grw).1 := by
  induction p with
  | halt e =>
    intro acc grw hinv
    simpa [Prog.outputOn, Prog.runOn] using hinv
  | headerGet key k ih =>
    intro acc grw hinv
    simp only [Prog.runOn, Prog.outputOn]
    exact ih _ acc grw hinv
  | headerSet key value rest ih =>
    intro acc grw hinv
    simp only [Prog.runOn, Prog.outputOn]
    exact ih acc _ hinv
  | headerDel key rest ih =>
    intro acc grw hinv
    simp only [Prog.runOn, Prog.outputOn]
    exact ih acc _ hinv
  | writeHeader code rest ih =>
    intro acc grw hinv
    have hg : (gzipResponseWriter DetectContentType codec).writeHeader grw code =
        ({ grw with ResponseWriter :=
              ((recorderWriter DetectContentType).writeHeader grw.ResponseWriter code).1 },
          ((recorderWriter DetectContentType).writeHeader grw.ResponseWriter code).2) := rfl
    simp only [Prog.runOn, Prog.outputOn, hg, recorderWriter_writeHeader_eq]
    cases hw : grw.ResponseWriter.wroteHeader with
    | true =>
      simp only [if_true]
      exact ih acc _ hinv
    | false =>
      by_cases hc : code < 100 ∨ 999 < code
      · simp only [Bool.false_eq_true, if_false, hc, if_true, String.append_empty]
        exact hinv
      · simp only [Bool.false_eq_true, if_false, hc]
        exact ih acc _ hinv
  | write b k ih =>
    intro acc grw hinv
    have hg : (gzipResponseWriter DetectContentType codec).write grw b
        = GzipResponseWriter.Write DetectContentType codec grw b := rfl
    obtain ⟨hret, hinv1, _, _⟩ := gzip_write_inv DetectContentType codec level base acc grw b hinv
    rcases hwr : GzipResponseWriter.Write DetectContentType codec grw b with ⟨grw1, e⟩
    rw [hwr] at hret hinv1
    simp only at hret hinv1
    subst hret
    simp only [Prog.runOn, Prog.outputOn, hg, hwr]
    rw [← String.append_assoc]
    exact ih _ _ grw1 hinv1

/-- A handler that leaves a header other than Content-Type alone finds it, and
leaves it, with the value it had when the handler started. -/
theorem gzip_run_header (DetectContentType : String → String) (codec : GzipCodec) (level : Int)
    (base name : String)
    (hname : CanonicalMIMEHeaderKey name ≠ CanonicalMIMEHeaderKey "Content-Type") (p : Prog) :
    ∀ (acc : String) (grw : GzipResponseWriter), GzipInv codec level base acc grw →
    Prog.leavesHeader name p →
    Header.Get (Prog.runOn (gzipResponseWriter DetectContentType codec) p
        grw).1.ResponseWriter.HeaderMap name
      = Header.Get grw.ResponseWriter.HeaderMap name := by
  induction p with
  | halt e =>
    intro acc grw _ _
    rfl
  | headerGet key k ih =>
    intro acc grw hinv hleave
    simp only [Prog.runOn]
    exact ih _ acc grw hinv (hleave _)
  | headerSet key value rest ih =>
    intro acc grw hinv hleave
    simp only [Prog.runOn]
    have hinv1 : GzipInv codec level base acc
        ((gzipResponseWriter DetectContentType codec).putHeader grw
          (Header.Set ((gzipResponseWriter DetectContentType codec).header grw) key value)) := hinv
    refine (ih acc _ hinv1 hleave.2).trans ?_
    exact Header.Get_Set_ne _ _ _ _ (fun h => hleave.1 h.symm)
  | headerDel key rest ih =>
    intro acc grw hinv hleave
    simp only [Prog.runOn]
    have hinv1 : GzipInv codec level base acc
        ((gzipResponseWriter DetectContentType codec).putHeader grw
          (Header.Del ((gzipResponseWriter DetectContentType codec).header grw) key)) := hinv
    refine (ih acc _ hinv1 hleave.2).trans ?_
    exact Header.Get_Del_ne _ _ _ (fun h => hleave.1 h.symm)
  | writeHeader code rest ih =>
    intro acc grw hinv hleave
    have hg : (gzipResponseWriter DetectContentType codec).writeHeader grw code =
        ({ grw with ResponseWriter :=
              ((recorderWriter DetectContentType).writeHeader grw.ResponseWriter code).1 },
          ((recorderWriter DetectContentType).writeHeader grw.ResponseWriter code).2) := rfl
    simp only [Prog.runOn, hg, recorderWriter_writeHeader_eq]
    cases hw : grw.ResponseWriter.wroteHeader with
    | true =>
      simp only [if_true]
      exact ih acc _ hinv hleave
    | false =>
      by_cases hc : code < 100 ∨ 999 < code
      · simp only [Bool.false_eq_true, if_false, hc, if_true]
      · simp only [Bool.false_eq_true, if_false, hc]
        exact ih acc _ hinv hleave
  | write b k ih =>
    intro acc grw hinv hleave
    have hg : (gzipResponseWriter DetectContentType codec).write grw b
        = GzipResponseWriter.Write DetectContentType codec grw b := rfl
    obtain ⟨hret, hinv1, _, hhdr⟩ :=
      gzip_write_inv DetectContentType codec level base acc grw b hinv
    rcases hwr : GzipResponseWriter.Write DetectContentType codec grw b with ⟨grw1, e⟩
    rw [hwr] at hret hinv1 hhdr
    simp only at hret hinv1 hhdr
    subst hret
    simp only [Prog.runOn, hg, hwr]
    exact (ih _ _ grw1 hinv1 (hleave _)).trans (hhdr name hname)

/-- Closing the gzip writer completes the stream: the embedded writer's body is
the starting body, the gzip header, and the rest of the stream for the whole
input; no header but Content-Type changes. -/
theorem gzip_close_body (DetectContentType : String → String) (codec : GzipCodec) (level : Int)
    (base acc : String) (grw : GzipResponseWriter) (hinv : GzipInv codec level base acc grw) :
    (GzipResponseWriter.Close DetectContentType codec grw).ResponseWriter.Body
      = base ++ (codec.header level ++ codec.finish level acc) ∧
    ∀ key, CanonicalMIMEHeaderKey key ≠ CanonicalMIMEHeaderKey "Content-Type" →
      Header.Get (GzipResponseWriter.Close DetectContentType codec grw).ResponseWriter.HeaderMap key
        = Header.Get grw.ResponseWriter.HeaderMap key := by
  have hclosed : grw.gz.closed = false := hinv.2.1
  have hstep : ∀ (acc1 : String) (grw1 : GzipResponseWriter), GzipInv codec level base acc1 grw1 →
      grw1.gz.wroteHeader = true →
      ((recorderWriter DetectContentType).write grw1.ResponseWriter
          (codec.finish grw1.gz.level grw1.gz.input)).1.Body
        = base ++ (codec.header level ++ codec.finish level acc1) := by
    intro acc1 grw1 hinv1 hgw
    obtain ⟨h1, _, h3, h4, _⟩ := hinv1
    rw [recorderWriter_write_eq]
    simp only [h4, hgw, if_true, h1, h3, String.append_assoc]
  cases hgw : grw.gz.wroteHeader with
  | true =>
    simp only [GzipResponseWriter.Close, hclosed, Bool.false_eq_true, if_false, hgw, if_true]
    exact ⟨hstep acc grw hinv hgw, fun key hkey => recorderWriter_write_header _ _ _ _ hkey⟩
  | false =>
    obtain ⟨_, hinv1, hgw1, hhdr⟩ := gzip_write_inv DetectContentType codec level base acc grw "" hinv
    rw [String.append_empty] at hinv1
    simp only [GzipResponseWriter.Close, hclosed, Bool.false_eq_true, if_false, hgw]
    refine ⟨hstep acc _ hinv1 hgw1, fun key hkey => ?_⟩
    rw [recorderWriter_write_header _ _ _ _ hkey]
    exact hhdr key hkey

/-- C16: take `compress/gzip` to read back what it writes at the level used,
which is the configured level or -1 for nil, and valid. For every request whose
Accept-Encoding header contains "gzip" and every handler that finishes
(returning or panicking), on a writer whose status allows a body, with `b` the
bytes the handler writes: the handler runs on the wrapped writer, made around
the original one after its Content-Encoding has been set to "gzip"; when it has
finished and the gzip writer is closed, the response body is what the writer
held followed by one gzip stream, and that stream gunzips to exactly `b`;
Content-Encoding is still "gzip" when the handler leaves that header alone; the
call ends as the handler ended. When the header does not contain "gzip", the
middleware is `Next` on the original writer, and sets no header. -/
theorem gzip_body_gunzips_to_handler_output (DetectContentType : String → String)
    (codec : GzipCodec) (m : GzipMiddleware) (w : ResponseWriter) (r : Request) (level : Int)
    (hcodec : ∀ b, codec.gunzip (codec.header level ++ codec.finish level b) = some b)
    (hlevel : m.CompressionLevel = some level ∨ (m.CompressionLevel = none ∧ level = -1))
    (hlo : -2 ≤ level) (hhi : level ≤ 9) :
    (stringsContains (Header.Get r.Header "Accept-Encoding") "gzip" = true →
      (Prog.runOn (gzipResponseWriter DetectContentType codec) (m.Next r)
        (NewGzipResponseWriter
          { w with HeaderMap := Header.Set w.HeaderMap "Content-Encoding" "gzip" }
          { level := level, wroteHeader := false, input := "", closed := false })).2
        ≠ Res.block →
      bodyAllowedForStatus w.Code = true →
      bodyAllowedForStatus (GzipMiddleware.ServeHTTP DetectContentType codec m w r).1.Code = true →
      GzipMiddleware.ServeHTTP DetectContentType codec m w r =
        ((GzipResponseWriter.Close DetectContentType codec
            (Prog.runOn (gzipResponseWriter DetectContentType codec) (m.Next r)
              (NewGzipResponseWriter
                { w with HeaderMap := Header.Set w.HeaderMap "Content-Encoding" "gzip" }
                { level := level, wroteHeader := false, input := "",
                  closed := false })).1).ResponseWriter,
          (Prog.runOn (gzipResponseWriter DetectContentType codec) (m.Next r)
            (NewGzipResponseWriter
              { w with HeaderMap := Header.Set w.HeaderMap "Content-Encoding" "gzip" }
              { level := level, wroteHeader := false, input := "", closed := false })).2) ∧
      Header.Get (Header.Set w.HeaderMap "Content-Encoding" "gzip") "Content-Encoding" = "gzip" ∧
      (∃ b stream,
        b = Prog.outputOn (gzipResponseWriter DetectContentType codec) (m.Next r)
          (NewGzipResponseWriter
            { w with HeaderMap := Header.Set w.HeaderMap "Content-Encoding" "gzip" }
            { level := level, wroteHeader := false, input := "", closed := false }) ∧
        stream = codec.header level ++ codec.finish level b ∧
        (GzipMiddleware.ServeHTTP DetectContentType codec m w r).1.Body = w.Body ++ stream ∧
        codec.gunzip stream = some b) ∧
      (Prog.leavesHeader "Content-Encoding" (m.Next r) →
        Header.Get (GzipMiddleware.ServeHTTP DetectContentType codec m w r).1.HeaderMap
          "Content-Encoding" = "gzip")) ∧
    (stringsContains (Header.Get r.Header "Accept-Encoding") "gzip" = false →
      GzipMiddleware.ServeHTTP DetectContentType codec m w r
        = Handler.ServeHTTP DetectContentType m.Next w r) := by
  constructor
  · intro hcontains hfinish _ _
    have hlev : (match m.CompressionLevel with
        | some l => l
        | none => -1) = level := by
      rcases hlevel with hl | ⟨hl, hm⟩
      · rw [hl]
      · rw [hl, hm]
    have hnew : NewWriterLevel level
        = some { level := level, wroteHeader := false, input := "", closed := false } := by
      have : ¬ (level < -2 ∨ 9 < level) := by omega
      simp [NewWriterLevel, this]
    have hinit : GzipInv codec level w.Body ""
        (NewGzipResponseWriter
          { w with HeaderMap := Header.Set w.HeaderMap "Content-Encoding" "gzip" }
          { level := level, wroteHeader := false, input := "", closed := false }) := by
      refine ⟨rfl, rfl, rfl, ?_, fun _ => rfl⟩
      simp [NewGzipResponseWriter]
    have hne : CanonicalMIMEHeaderKey "Content-Encoding" ≠ CanonicalMIMEHeaderKey "Content-Type" := by
      decide
    have hrun := gzip_run_inv DetectContentType codec level w.Body (m.Next r) "" _ hinit
    rw [String.empty_append] at hrun
    obtain ⟨hbody, hhdr⟩ := gzip_close_body DetectContentType codec level w.Body _ _ hrun
    have hserve : GzipMiddleware.ServeHTTP DetectContentType codec m w r =
        ((GzipResponseWriter.Close DetectContentType codec
            (Prog.runOn (gzipResponseWriter DetectContentType codec) (m.Next r)
              (NewGzipResponseWriter
                { w with HeaderMap := Header.Set w.HeaderMap "Content-Encoding" "gzip" }
                { level := level, wroteHeader := false, input := "",
                  closed := false })).1).ResponseWriter,
          (Prog.runOn (gzipResponseWriter DetectContentType codec) (m.Next r)
            (NewGzipResponseWriter
              { w with HeaderMap := Header.Set w.HeaderMap "Content-Encoding" "gzip" }
              { level := level, wroteHeader := false, input := "", closed := false })).2) := by
      simp only [GzipMiddleware.ServeHTTP, hcontains, if_true, hlev, hnew]
    refine ⟨hserve, Header.Get_Set _ _ _, ⟨_, _, rfl, rfl, ?_, hcodec _⟩, ?_⟩
    · rw [hserve]
      exact hbody
    · intro hleave
      rw [hserve]
      refine (hhdr "Content-Encoding" hne).trans ?_
      refine (gzip_run_header DetectContentType codec level w.Body "Content-Encoding" hne
        (m.Next r) "" _ hinit hleave).trans ?_
      exact Header.Get_Set _ _ _
  · intro hcontains
    simp [GzipMiddleware.ServeHTTP, hcontains]

theorem gzip_body_gunzips_to_handler_output_witness :
    (∀ b, markCodec.gunzip (markCodec.header (-1) ++ markCodec.finish (-1) b) = some b) ∧
    ((NewGzipMiddleware helloHandler none).CompressionLevel = some (-1) ∨
      ((NewGzipMiddleware helloHandler none).CompressionLevel = none ∧ (-1 : Int) = -1)) ∧
    (-2 : Int) ≤ -1 ∧ (-1 : Int) ≤ 9 ∧
    stringsContains (Header.Get gzipRequest.Header "Accept-Encoding") "gzip" = true ∧
    (Prog.runOn (gzipResponseWriter detectTextOrGzip markCodec)
      ((NewGzipMiddleware helloHandler none).Next gzipRequest)
      (NewGzipResponseWriter
        { NewRecorder with
          HeaderMap := Header.Set NewRecorder.HeaderMap "Content-Encoding" "gzip" }
        { level := -1, wroteHeader := false, input := "", closed := false })).2 ≠ Res.block ∧
    bodyAllowedForStatus NewRecorder.Code = true ∧
    bodyAllowedForStatus (GzipMiddleware.ServeHTTP detectTextOrGzip markCodec
      (NewGzipMiddleware helloHandler none) NewRecorder gzipRequest).1.Code = true ∧
    Prog.leavesHeader "Content-Encoding" ((NewGzipMiddleware helloHandler none).Next gzipRequest) ∧
    (∃ b stream,
      b = Prog.outputOn (gzipResponseWriter detectTextOrGzip markCodec)
        ((NewGzipMiddleware helloHandler none).Next gzipRequest)
        (NewGzipResponseWriter
          { NewRecorder with
            HeaderMap := Header.Set NewRecorder.HeaderMap "Content-Encoding" "gzip" }
          { level := -1, wroteHeader := false, input := "", closed := false }) ∧
      stream = markCodec.header (-1) ++ markCodec.finish (-1) b ∧
      (GzipMiddleware.ServeHTTP detectTextOrGzip markCodec (NewGzipMiddleware helloHandler none)
        NewRecorder gzipRequest).1.Body = NewRecorder.Body ++ stream ∧
      markCodec.gunzip stream = some b) ∧
    Header.Get (GzipMiddleware.ServeHTTP detectTextOrGzip markCodec
      (NewGzipMiddleware helloHandler none) NewRecorder gzipRequest).1.HeaderMap
      "Content-Encoding" = "gzip" ∧
    Prog.outputOn (gzipResponseWriter detectTextOrGzip markCodec)
      ((NewGzipMiddleware helloHandler none).Next gzipRequest)
      (NewGzipResponseWriter
        { NewRecorder with
          HeaderMap := Header.Set NewRecorder.HeaderMap "Content-Encoding" "gzip" }
        { level := -1, wroteHeader := false, input := "", closed := false })
      = "Hello, World!" ∧
    (GzipMiddleware.ServeHTTP detectTextOrGzip markCodec (NewGzipMiddleware helloHandler none)
      NewRecorder gzipRequest).1.HeaderMap
      = [("Content-Encoding", ["gzip"]), ("Content-Type", ["application/x-gzip"])] ∧
    (GzipMiddleware.ServeHTTP detectTextOrGzip markCodec (NewGzipMiddleware helloHandler none)
      NewRecorder gzipRequest).1.Code = 200 ∧
    markCodec.gunzip (GzipMiddleware.ServeHTTP detectTextOrGzip markCodec
      (NewGzipMiddleware helloHandler none) NewRecorder gzipRequest).1.Body
      = some "Hello, World!" ∧
    (GzipMiddleware.ServeHTTP detectTextOrGzip markCodec (NewGzipMiddleware helloHandler none)
      NewRecorder gzipRequest).2 = Res.ret () :=
  ⟨fun b => markCodec_gunzip (-1) b, Or.inr ⟨rfl, rfl⟩, by decide, by decide, by decide,
    by decide, by decide, by decide, fun _ => trivial,
    ((gzip_body_gunzips_to_handler_output detectTextOrGzip markCodec
      (NewGzipMiddleware helloHandler none) NewRecorder gzipRequest (-1)
      (fun b => markCodec_gunzip (-1) b) (Or.inr ⟨rfl, rfl⟩) (by decide) (by decide)).1
      (by decide) (by decide) (by decide) (by decide)).2.2.1,
    ((gzip_body_gunzips_to_handler_output detectTextOrGzip markCodec
      (NewGzipMiddleware helloHandler none) NewRecorder gzipRequest (-1)
      (fun b => markCodec_gunzip (-1) b) (Or.inr ⟨rfl, rfl⟩) (by decide) (by decide)).1
      (by decide) (by decide) (by decide) (by decide)).2.2.2 (fun _ => trivial),
    by decide, by decide, by decide, by decide, by decide⟩

/-! ## The admission controller of the design document -/

/-- With no interval elapsed since the last refill, the algorithm of the design
admits exactly when a token is left. -/
theorem Spec.admitAt_no_refill (state : BucketState) (config : RateLimitConfig) (now : Int)
    (hpos : 0 < config.refillInterval) (hnow : now - state.lastRefill < config.refillInterval) :
    (Spec.admitAt state config now).2 = decide (1 ≤ state.tokens) := by
  have hel : ¬ ((if now - state.lastRefill < 0 then 0 else now - state.lastRefill)
      ≥ config.refillInterval) := by
    split <;> omega
  simp only [Spec.admitAt, hel, if_false, Spec.admitStep]
  by_cases h1 : state.tokens ≥ 1
  · simp [h1]
  · simp [h1]

/-- C11: in the limiter as the design document has it, with a remote store
configured and failing during a check, the check is decided by the in-process
store for that call: no error surfaces, the remote store is left as it was, the
request is admitted while the key's in-process bucket has a token and otherwise
answered 429 'Rate limit exceeded'; once the remote store can be reached again,
the next check is decided by the remote store. With the limiter of the test
(two per second, remote store failing), three requests at the same instant are
admitted, admitted and rejected. -/
theorem remote_failure_falls_back_to_in_process (c : AdmissionController) (rs : RemoteStore)
    (key : String) (now : Int) (hremote : c.remote = some rs) (hdown : rs.reachable = false) :
    AdmissionController.Check c key now =
      ({ c with inProcess := (Spec.checkStore c.config c.inProcess key now).1 },
        (Spec.checkStore c.config c.inProcess key now).2) ∧
    (AdmissionController.Check c key now).1.remote = some rs ∧
    (∀ st, BucketStore.get c.inProcess key = some st → 0 < c.config.refillInterval →
      now - st.lastRefill < c.config.refillInterval →
      (AdmissionController.Check c key now).2 = decide (1 ≤ st.tokens)) ∧
    (∀ w r, c.clientKey r = key →
      (AdmissionController.ServeHTTP c w r now).2 =
        (if (Spec.checkStore c.config c.inProcess key now).2 then Call.next w r
         else Call.httpError w "Rate limit exceeded" 429)) ∧
    (∀ key1 now1,
      AdmissionController.Check
        { (AdmissionController.Check c key now).1 with
          remote := some { rs with reachable := true } } key1 now1
      = ({ (AdmissionController.Check c key now).1 with
           remote := some { buckets := (Spec.checkStore c.config rs.buckets key1 now1).1,
                            reachable := true } },
         (Spec.checkStore c.config rs.buckets key1 now1).2)) ∧
    (AdmissionController.ServeHTTP degradedController NewRecorder (NewRequest "GET" "/") 100).2
      = Call.next NewRecorder (NewRequest "GET" "/") ∧
    (AdmissionController.ServeHTTP
      (AdmissionController.ServeHTTP degradedController NewRecorder (NewRequest "GET" "/") 100).1
      NewRecorder (NewRequest "GET" "/") 100).2
      = Call.next NewRecorder (NewRequest "GET" "/") ∧
    (AdmissionController.ServeHTTP
      (AdmissionController.ServeHTTP
        (AdmissionController.ServeHTTP degradedController NewRecorder
          (NewRequest "GET" "/") 100).1
        NewRecorder (NewRequest "GET" "/") 100).1
      NewRecorder (NewRequest "GET" "/") 100).2
      = Call.httpError NewRecorder "Rate limit exceeded" 429 := by
  have hcheck : AdmissionController.Check c key now =
      ({ c with inProcess := (Spec.checkStore c.config c.inProcess key now).1 },
        (Spec.checkStore c.config c.inProcess key now).2) := by
    simp [AdmissionController.Check, hremote, hdown]
  refine ⟨hcheck, ?_, ?_, ?_, ?_, by decide, by decide, by decide⟩
  · rw [hcheck]
    exact hremote
  · intro st hst hpos hnow
    rw [hcheck]
    simp only [Spec.checkStore, hst]
    exact Spec.admitAt_no_refill st c.config now hpos hnow
  · intro w r hkey
    simp only [AdmissionController.ServeHTTP, hkey, hcheck]
    split <;> rfl
  · intro key1 now1
    rw [hcheck]
    simp [AdmissionController.Check]

theorem remote_failure_falls_back_to_in_process_witness :
    degradedController.remote = some { buckets := [], reachable := false } ∧
    ({ buckets := [], reachable := false } : RemoteStore).reachable = false ∧
    (AdmissionController.Check degradedController "192.0.2.1:1234" 100).1.remote
      = some { buckets := [], reachable := false } ∧
    (AdmissionController.Check degradedController "192.0.2.1:1234" 100).2 = true :=
  ⟨rfl, rfl,
    (remote_failure_falls_back_to_in_process degradedController
      { buckets := [], reachable := false } "192.0.2.1:1234" 100 rfl rfl).2.1,
    by decide⟩

/-- C21: when the configured `CSRFToken` is the empty string, every request
whose CSRF header (read under the canonical form of its name) is absent or
empty, whose CSRF cookie is absent or of empty value, and whose CSRF form
parameter is absent or empty has the empty token, passes validation and is
forwarded: `ServeHTTP` ends in `Next`, on the same writer and request, and
never in `http.Error`, whatever `ErrorStatus` is. A request that does carry a
value, such as the header X-Csrf-Token "evil" under the configured name
X-CSRF-Token, is not among them: it is answered with `http.Error`. -/
theorem csrf_empty_token_forwards_tokenless (DetectContentType : String → String)
    (m : CSRFMiddleware) (w : ResponseWriter)
    (r : Request) (htoken : m.CSRFToken = "")
    (hheader : Header.Get r.Header m.CSRFHeader = "")
    (hcookie : Request.Cookie r m.CSRFCookie = none ∨
      ∃ cookie, Request.Cookie r m.CSRFCookie = some cookie ∧ cookie.Value = "")
    (hform : Request.FormValue r m.CSRFParam = "") :
    CSRFMiddleware.token m r = "" ∧
    CSRFMiddleware.ServeHTTP m w r = Call.next w r ∧
    (CSRFMiddleware.ServeHTTP m w r).isNext = true ∧
    Call.exec DetectContentType m.Next (CSRFMiddleware.ServeHTTP m w r) = m.Next w r ∧
    CSRFMiddleware.ServeHTTP
      (NewCSRFMiddleware (fun w0 _ => Res.ret w0) "X-CSRF-Token" "csrfCookie" "csrfParam" "" 403)
      NewRecorder
      { Method := "GET", URL := "/", RemoteAddr := "192.0.2.1:1234",
        Header := [("X-Csrf-Token", ["evil"])] }
      = Call.httpError NewRecorder "CSRF token validation failed" 403 := by
  have ht : CSRFMiddleware.token m r = "" := by
    rcases hcookie with hc | ⟨cookie, hc, hv⟩
    · simp [CSRFMiddleware.token, hheader, hc, hform]
    · simp [CSRFMiddleware.token, hheader, hc, hv, hform]
  have hs : CSRFMiddleware.ServeHTTP m w r = Call.next w r := by
    simp [CSRFMiddleware.ServeHTTP, ht, htoken]
  refine ⟨ht, hs, ?_, ?_, by decide⟩
  · rw [hs]
    rfl
  · rw [hs]
    rfl

theorem csrf_empty_token_forwards_tokenless_witness :
    (NewCSRFMiddleware (fun w0 _ => ResponseWriter.Write detectTextOrGzip w0 "Hello, World!")
      "X-CSRF-Token" "csrfCookie" "csrfParam" "" 403).CSRFToken = "" ∧
    Header.Get (NewRequest "GET" "/").Header "X-CSRF-Token" = "" ∧
    (Request.Cookie (NewRequest "GET" "/") "csrfCookie" = none ∨
      ∃ cookie, Request.Cookie (NewRequest "GET" "/") "csrfCookie" = some cookie ∧
        cookie.Value = "") ∧
    Request.FormValue (NewRequest "GET" "/") "csrfParam" = "" ∧
    CSRFMiddleware.ServeHTTP
      (NewCSRFMiddleware (fun w0 _ => ResponseWriter.Write detectTextOrGzip w0 "Hello, World!")
        "X-CSRF-Token" "csrfCookie" "csrfParam" "" 403)
      NewRecorder (NewRequest "GET" "/") = Call.next NewRecorder (NewRequest "GET" "/") ∧
    Call.exec detectTextOrGzip
      (NewCSRFMiddleware (fun w0 _ => ResponseWriter.Write detectTextOrGzip w0 "Hello, World!")
        "X-CSRF-Token" "csrfCookie" "csrfParam" "" 403).Next
      (CSRFMiddleware.ServeHTTP
        (NewCSRFMiddleware (fun w0 _ => ResponseWriter.Write detectTextOrGzip w0 "Hello, World!")
          "X-CSRF-Token" "csrfCookie" "csrfParam" "" 403)
        NewRecorder (NewRequest "GET" "/"))
      = Res.ret { Code := 200, HeaderMap := [("Content-Type", ["text/plain; charset=utf-8"])],
                  Body := "Hello, World!", wroteHeader := true } :=
  ⟨rfl, by decide, Or.inl (by decide), by decide,
    (csrf_empty_token_forwards_tokenless detectTextOrGzip
      (NewCSRFMiddleware (fun w0 _ => ResponseWriter.Write detectTextOrGzip w0 "Hello, World!")
        "X-CSRF-Token" "csrfCookie" "csrfParam" "" 403)
      NewRecorder (NewRequest "GET" "/") rfl (by decide) (Or.inl (by decide)) (by decide)).2.1,
    by decide⟩

end Httplib
